import Mathlib

/-! Formal model of the foresight-analyzer core (src/core/api_client.py and the
web backend's run_forecast_task in src/web/backend/api.py), together with proofs
about its probability-extraction cascade, query/caching logic, retry behaviour,
scheduling and aggregation interface.

Strings are modelled as `List Char`.  Python regular-expression patterns are
embedded via a small backtracking matcher (`RE`, `mat`) whose alternative
ordering follows Python's leftmost / greedy / lazy priority semantics; every
quantifier occurring in the source patterns ranges over a single character
class, which the `RE` type reflects.  Python floats obtained from decimal
literals are modelled as exact rationals. -/

namespace Foresight

/-- Python's regex class `\s` (ASCII part): space, tab, newline, CR, VT, FF. -/
def isSpc (c : Char) : Bool :=
  c = ' ' || c = '\t' || c = '\n' || c = '\r' || c = '\x0b' || c = '\x0c'

/-- Python's regex class `\w` (ASCII part): letters, digits, underscore. -/
def isWord (c : Char) : Bool :=
  c.isAlphanum || c = '_'

/-- Python's `.` regex class: any character except a newline. -/
def isDot (c : Char) : Bool :=
  c != '\n'

/-- Python `str.lower()` on the ASCII range. -/
def listLower (s : List Char) : List Char :=
  s.map Char.toLower

/-- Python's substring test `pat in hay`. -/
def containsSub (hay pat : List Char) : Bool :=
  pat.isPrefixOf hay ||
    (match hay with
     | [] => false
     | _ :: t => containsSub t pat)

/-- Python's `str.split(sep)` for a one-character separator. -/
def splitOnChar (sep : Char) : List Char → List (List Char)
  | [] => [[]]
  | x :: xs =>
    match splitOnChar sep xs with
    | [] => if x = sep then [[], []] else [[x]]
    | r :: rs => if x = sep then [] :: r :: rs else (x :: r) :: rs

/-- Python's `str.strip()` (whitespace from both ends). -/
def pyStrip (s : List Char) : List Char :=
  ((s.dropWhile isSpc).reverse.dropWhile isSpc).reverse

/-- Numeric value of a digit string (base 10), as Python `int`/`float` parsing
of the integer part. -/
def digitsVal (ds : List Char) : ℕ :=
  ds.foldl (fun a c => 10 * a + (c.toNat - '0'.toNat)) 0

/-- Python `float(s)` for a string matched by `\d+(\.\d+)?`, as an exact
rational. -/
def parseDec (cs : List Char) : ℚ :=
  let ip := cs.takeWhile (fun c => c != '.')
  let rest := cs.dropWhile (fun c => c != '.')
  match rest with
  | [] => mkRat (digitsVal ip) 1
  | _ :: frac => mkRat (digitsVal ip * 10 ^ frac.length + digitsVal frac) (10 ^ frac.length)

/-- Regular expressions as used by `_extract_probability`: all quantifiers in
the source patterns range over single character classes.  `ch` matching is
case-insensitive, reflecting `re.IGNORECASE` on every compiled source pattern.
`eol` is `$` under `re.MULTILINE` (end of input or before a newline). -/
inductive RE where
  | eps
  | ch (c : Char)
  | cls (f : Char → Bool)
  | seq (a b : RE)
  | alt (a b : RE)
  | quest (a : RE)
  | starG (f : Char → Bool)
  | starL (f : Char → Bool)
  | plus (f : Char → Bool)
  | grp (a : RE)
  | eol
  | wb

/-- Result of a successful match: the capture-group text, the character
preceding the end position, and the remaining input. -/
structure MRes where
  cap : Option (List Char)
  prev : Option Char
  rest : List Char
  deriving Repr, DecidableEq

/-- Continuations for the backtracking matcher. -/
abbrev K := Option Char → List Char → Option (List Char) → Option MRes

/-- Length of the maximal prefix satisfying a character class. -/
def runLen (f : Char → Bool) (s : List Char) : ℕ :=
  (s.takeWhile f).length

/-- Consume `n` characters, tracking the preceding character. -/
def advance (prev : Option Char) (s : List Char) : ℕ → Option Char × List Char
  | 0 => (prev, s)
  | n + 1 =>
    match s with
    | [] => (prev, [])
    | x :: xs => advance (some x) xs n

/-- Try the given consumption counts in order (backtracking priority order). -/
def tryCnt (k : K) (prev : Option Char) (s : List Char) (cap : Option (List Char)) :
    List ℕ → Option MRes
  | [] => none
  | n :: ns =>
    (let p := advance prev s n
     k p.1 p.2 cap) <|> tryCnt k prev s cap ns

/-- Counts `n, n-1, …, 0` (greedy star order). -/
def cntDown : ℕ → List ℕ
  | 0 => [0]
  | n + 1 => (n + 1) :: cntDown n

/-- Counts `0, 1, …, n` (lazy star order). -/
def cntUp (n : ℕ) : List ℕ :=
  (cntDown n).reverse

/-- Counts `n, n-1, …, 1` (greedy plus order). -/
def cntDownPos : ℕ → List ℕ
  | 0 => []
  | n + 1 => (n + 1) :: cntDownPos n

/-- Backtracking matcher in continuation-passing style.  Alternatives are tried
in Python's priority order: left alternative first, greedy quantifiers longest
first, lazy quantifiers shortest first. -/
def mat : RE → Option Char → List Char → Option (List Char) → K → Option MRes
  | .eps, prev, s, cap, k => k prev s cap
  | .ch c, _, s, cap, k =>
    match s with
    | [] => none
    | x :: xs => if x.toLower = c.toLower then k (some x) xs cap else none
  | .cls f, _, s, cap, k =>
    match s with
    | [] => none
    | x :: xs => if f x then k (some x) xs cap else none
  | .seq a b, prev, s, cap, k =>
    mat a prev s cap (fun p s' c => mat b p s' c k)
  | .alt a b, prev, s, cap, k =>
    mat a prev s cap k <|> mat b prev s cap k
  | .quest a, prev, s, cap, k =>
    mat a prev s cap k <|> k prev s cap
  | .starG f, prev, s, cap, k => tryCnt k prev s cap (cntDown (runLen f s))
  | .starL f, prev, s, cap, k => tryCnt k prev s cap (cntUp (runLen f s))
  | .plus f, prev, s, cap, k => tryCnt k prev s cap (cntDownPos (runLen f s))
  | .grp a, prev, s, cap, k =>
    mat a prev s cap (fun p s' _ => k p s' (some (s.take (s.length - s'.length))))
  | .eol, prev, s, cap, k =>
    match s with
    | [] => k prev s cap
    | x :: _ => if x = '\n' then k prev s cap else none
  | .wb, prev, s, cap, k =>
    let wp := match prev with | some c => isWord c | none => false
    let wn := match s with | x :: _ => isWord x | [] => false
    if wp ≠ wn then k prev s cap else none

/-- Attempt a full pattern match anchored at the current position. -/
def matchAt (r : RE) (prev : Option Char) (s : List Char) : Option MRes :=
  mat r prev s none (fun p s' c => some ⟨c, p, s'⟩)

/-- Python `re.search`: leftmost position at which the pattern matches. -/
def searchAux (r : RE) (prev : Option Char) (s : List Char) : Option MRes :=
  matchAt r prev s <|>
    (match s with
     | [] => none
     | x :: xs => searchAux r (some x) xs)

/-- Python `re.search(...).group(1)`. -/
def reSearch (r : RE) (s : List Char) : Option (List Char) :=
  (searchAux r none s).map (fun m => m.cap.getD [])

/-- Python `re.findall`, returning the group-1 captures of all non-overlapping
matches, leftmost first.  None of the source patterns can match the empty
string, so the zero-width resumption branch is never taken. -/
def findAux (r : RE) : Option Char → List Char → ℕ → List (List Char)
  | _, _, 0 => []
  | prev, s, fuel + 1 =>
    match searchAux r prev s with
    | none => []
    | some m =>
      m.cap.getD [] ::
        (if m.rest.length < s.length then findAux r m.prev m.rest fuel
         else
           match m.rest with
           | [] => []
           | x :: xs => findAux r (some x) xs fuel)

/-- Python `re.findall` (group-1 captures). -/
def reFindall (r : RE) (s : List Char) : List (List Char) :=
  findAux r none s (s.length + 1)

/-- Literal string pattern (each character matched case-insensitively, as under
`re.IGNORECASE`). -/
def slit : List Char → RE
  | [] => .eps
  | c :: cs => .seq (.ch c) (slit cs)

/-- Sequencing of a pattern list. -/
def seqs : List RE → RE
  | [] => .eps
  | r :: rs => .seq r (seqs rs)

/-- Ordered alternation `(?:a|b|…)`. -/
def altList : List RE → RE
  | [] => .cls (fun _ => false)
  | [r] => r
  | r :: rs => .alt r (altList rs)

/-- Pattern `\s*`. -/
def sp : RE := .starG isSpc

/-- Pattern `\s+`. -/
def spP : RE := .plus isSpc

/-- Pattern `(\d+(?:\.\d+)?)` — the capture group of every numeric pattern. -/
def num : RE :=
  .grp (.seq (.plus Char.isDigit) (.quest (.seq (.ch '.') (.plus Char.isDigit))))

/-- Pattern `\d+(?:\.\d+)?` without a capture group. -/
def numNG : RE :=
  .seq (.plus Char.isDigit) (.quest (.seq (.ch '.') (.plus Char.isDigit)))

/-- Pattern `.*?`. -/
def lazyDot : RE := .starL isDot

/-- Pattern `(\d+(?:\.\d+)?)\s*%`. -/
def pct_re : RE := seqs [num, sp, .ch '%']

/-- Pattern `(\d+(?:\.\d+)?)`; also stands in for the group-less findall
pattern `\d+(?:\.\d+)?`, whose whole match equals this pattern's group. -/
def num_re : RE := num

/-- Pattern `\b(\d+(?:\.\d+)?)\b` of the last-resort scan. -/
def bare_num_re : RE := seqs [.wb, num, .wb]

/-- The `hauptprognose_patterns` list of `_extract_probability` (priority 1). -/
def hauptprognose_patterns : List RE :=
  [seqs [slit "HAUPTPROGNOSE:".data, sp, num, sp, .ch '%'],
   seqs [slit "**HAUPTPROGNOSE:".data, sp, num, sp, slit "%**".data],
   seqs [slit "HAUPTPROGNOSE:".data, sp, slit "**".data, num, sp, slit "%**".data],
   seqs [slit "HAUPTPROGNOSE:".data, sp, num]]

/-- The `prognose_patterns` list (legacy format, priority 2). -/
def prognose_patterns : List RE :=
  [seqs [slit "PROGNOSE:".data, sp, num, sp, .ch '%'],
   seqs [slit "**PROGNOSE:".data, sp, num, sp, slit "%**".data],
   seqs [slit "PROGNOSE:".data, sp, slit "**".data, num, sp, slit "%**".data],
   seqs [slit "PROGNOSE:".data, sp, num]]

/-- The `final_prob_patterns` list (formula results, `re.MULTILINE`). -/
def final_prob_patterns : List RE :=
  [seqs [slit "Final_Probability".data, sp, .ch '=', sp, num],
   seqs [slit "Final_Probability".data, sp, .ch '=', lazyDot, num, sp, .ch '%'],
   seqs [.ch '=', sp, num, sp, .quest (.ch '%'), .eol]]

/-- The `forecast_patterns` keyword list of `_extract_probability`. -/
def forecast_patterns : List (List Char) :=
  ["prognose:".data, "forecast:".data, "prediction:".data, "probability:".data,
   "wahrscheinlichkeit:".data, "final probability:".data, "ensemble probability:".data,
   "result:".data, "answer:".data, "conclusion:".data]

/-- The `percentage_patterns` fallback list of `_extract_probability`. -/
def percentage_patterns : List RE :=
  [pct_re,
   seqs [num, sp, slit "percent".data],
   seqs [slit "probability".data, sp, .quest (altList [slit "of".data, slit "is".data, .ch ':']),
         sp, num, sp, .ch '%'],
   seqs [num, sp, .ch '%', sp, slit "probability".data],
   seqs [slit "final".data, lazyDot, num, sp, .ch '%'],
   seqs [slit "answer".data, lazyDot, num, sp, .ch '%'],
   seqs [slit "final_probability".data, lazyDot, num, sp, .ch '%'],
   seqs [slit "Final_Probability".data, lazyDot, num],
   seqs [.ch '=', sp, num, sp, .ch '%'],
   seqs [slit "therefore".data, lazyDot, num, sp, .ch '%'],
   seqs [slit "conclusion".data, lazyDot, num, sp, .ch '%'],
   seqs [slit "estimate".data, lazyDot, num, sp, .ch '%'],
   seqs [slit "assess".data, lazyDot, num, sp, .ch '%'],
   seqs [slit "likely".data, lazyDot, num, sp, .ch '%'],
   seqs [slit "around".data, sp, num, sp, .ch '%'],
   seqs [slit "approximately".data, sp, num, sp, .ch '%'],
   seqs [slit "roughly".data, sp, num, sp, .ch '%'],
   seqs [slit "my".data, spP, .quest (seqs [slit "final".data, spP]),
         altList [slit "forecast".data, slit "prediction".data, slit "estimate".data],
         spP, slit "is".data, spP, num, sp, .ch '%'],
   seqs [slit "i".data, spP, .quest (seqs [slit "would".data, spP]),
         altList [slit "forecast".data, slit "predict".data, slit "estimate".data],
         spP, num, sp, .ch '%']]

/-- The `formula_patterns` list (Super-Forecaster formula, `re.MULTILINE`). -/
def formula_patterns : List RE :=
  [seqs [slit "Final_Probability".data, sp, .ch '=', lazyDot, num],
   seqs [.ch '(', sp, numNG, sp, .ch '×', lazyDot, .ch ')', sp, .ch '/', sp,
         slit "100".data, sp, .ch '=', sp, num],
   seqs [.ch '=', sp, num, sp, .quest (.ch '%'), .eol],
   seqs [slit "Antwort:".data, sp, num, sp, .ch '%'],
   seqs [slit "Ergebnis:".data, sp, num, sp, .ch '%']]

/-- One `re.search` strategy pass: first pattern whose match is in `[0,100]`
wins; an out-of-range match falls through to the next pattern. -/
def tryPatterns (ps : List RE) (content : List Char) : Option ℚ :=
  ps.findSome? fun p =>
    match reSearch p content with
    | some cap =>
      let value := parseDec cap
      if 0 ≤ value ∧ value ≤ 100 then some value else none
    | none => none

/-- One `re.findall` strategy pass taking the last match, range-checked. -/
def tryFindallChecked (ps : List RE) (content : List Char) : Option ℚ :=
  ps.findSome? fun p =>
    match (reFindall p content).getLast? with
    | some cap =>
      let value := parseDec cap
      if 0 ≤ value ∧ value ≤ 100 then some value else none
    | none => none

/-- One `re.findall` strategy pass taking the last match with NO range check —
this embeds the `percentage_patterns` loop, which returns
`float(matches[-1])` unconditionally. -/
def tryFindallRaw (ps : List RE) (content : List Char) : Option ℚ :=
  ps.findSome? fun p => ((reFindall p content).getLast?).map parseDec

/-- The `prob_text` selection of the keyword-line strategy: same line if it has
a percent sign (split at the last colon), else one of the next two lines. -/
def lineProbText (lines : List (List Char)) (i : ℕ) (line : List Char) :
    Option (List Char) :=
  if line.contains '%' then
    some (if line.contains ':' then pyStrip ((splitOnChar ':' line).getLastD [])
          else pyStrip line)
  else if i + 1 < lines.length ∧ (lines.getD (i + 1) []).contains '%' = true then
    some (pyStrip (lines.getD (i + 1) []))
  else if i + 2 < lines.length ∧ (lines.getD (i + 2) []).contains '%' = true then
    some (pyStrip (lines.getD (i + 2) []))
  else none

/-- Number extraction from a keyword line's `prob_text`: percentage first
(range-checked), then the `"40-60"` midpoint rule (NOT range-checked, as in the
source), then a bare number with the decimal-fraction rule. -/
def probFromText (pt : List Char) : Option ℚ :=
  let fromPct :=
    match reSearch pct_re pt with
    | some cap =>
      let value := parseDec cap
      if 0 ≤ value ∧ value ≤ 100 then some value else none
    | none => none
  match fromPct with
  | some v => some v
  | none =>
    let pt2 := pyStrip (pt.filter (fun c => c != '%'))
    let fromRange :=
      if pt2.contains '-' then
        match reFindall num_re pt2 with
        | n0 :: n1 :: _ => some ((parseDec n0 + parseDec n1) / 2)
        | _ => none
      else none
    match fromRange with
    | some v => some v
    | none =>
      match reSearch num_re pt2 with
      | some cap =>
        let value := parseDec cap
        if 0 < value ∧ value ≤ 1 ∧ pt2.contains '%' = false then some (value * 100)
        else if 0 ≤ value ∧ value ≤ 100 then some value
        else none
      | none => none

/-- The keyword-anchored line strategy (priority 3 of the cascade). -/
def keywordScan (content : List Char) : Option ℚ :=
  let content_lower := listLower content
  let lines := splitOnChar '\n' content
  forecast_patterns.findSome? fun kw =>
    if containsSub content_lower kw then
      lines.enum.findSome? fun p =>
        if containsSub (listLower p.2) kw then
          (lineProbText lines p.1 p.2).bind probFromText
        else none
    else none

/-- The last-resort scan over the final 500 characters, from the end backward,
returning the first number in `[0,100]`. -/
def last_resort (content : List Char) : Option ℚ :=
  let end_content := content.drop (content.length - 500)
  ((reFindall bare_num_re end_content).reverse).findSome? fun cap =>
    let value := parseDec cap
    if 0 ≤ value ∧ value ≤ 100 then some value else none

/-- Embeds `OpenRouterClient._extract_probability`: the full ordered extraction
cascade.  The surrounding `try/except` of the source cannot fire (every
`float()` argument is produced by a digits-only regex), and is reflected by
totality of this function. -/
def extract_probability (content : List Char) : Option ℚ :=
  if content = [] then none
  else
    (tryPatterns hauptprognose_patterns content) <|>
    (tryPatterns prognose_patterns content) <|>
    (tryFindallChecked final_prob_patterns content) <|>
    (keywordScan content) <|>
    (tryFindallRaw percentage_patterns content) <|>
    (tryFindallChecked formula_patterns content) <|>
    (last_resort content)

/-- Terminal status of one query attempt. -/
inductive Status where
  | success
  | error
  | timeout
  | rejected
  deriving Repr, DecidableEq

/-- Provenance of a result (`response_source` field). -/
inductive Source where
  | api
  | cache
  deriving Repr, DecidableEq

/-- Token usage triple of a response. -/
structure Usage where
  prompt_tokens : ℕ := 0
  completion_tokens : ℕ := 0
  total_tokens : ℕ := 0
  deriving Repr, DecidableEq

/-- Embeds the result dictionary built by `query_model`.  Timing fields
(`timestamp`, `response_time`) and `log_probabilities` are metadata not
involved in any claim and are omitted; the timeout/exception dictionaries of
the source carry no `response_source` key, modelled by the `.api` default. -/
structure CallResult where
  model : List Char
  content : Option (List Char)
  probability : Option ℚ
  usage : Usage := {}
  error : Option (List Char) := none
  status : Status
  response_source : Source := .api
  deriving Repr, DecidableEq

/-- One entry of the backend response's `choices` array. -/
structure Choice where
  content : Option (List Char)
  deriving Repr, DecidableEq

/-- Shape of a parsed OpenRouter response as consumed by `query_model`:
`error.message` when the payload reports an error, `choices[0].message.content`
and the `usage` counters otherwise. -/
structure ApiResponse where
  error : Option (List Char) := none
  choices : List Choice := []
  usage : Usage := {}
  deriving Repr, DecidableEq

/-- `choices[0].get("message", {}).get("content", "") or ""`. -/
def response_content (r : ApiResponse) : List Char :=
  match r.choices.head? with
  | some c => c.content.getD []
  | none => []

/-- The `rejection_patterns` list of `query_model`. -/
def rejection_patterns : List (List Char) :=
  ["cannot ignore my safety instructions".data,
   "must decline this request".data,
   "attempt to override".data,
   "cannot comply with".data,
   "against my programming".data,
   "violates my guidelines".data]

/-- Case-insensitive scan of the content for any refusal phrase. -/
def is_rejected (content : List Char) : Bool :=
  rejection_patterns.any (fun p => containsSub (listLower content) p)

/-- Embeds the response-processing part of `query_model` (lines 122-202):
the early return on an explicit error payload, content extraction, rejection
detection, probability extraction and the final `[0,100]` bounds validation
(lines 176-179). -/
def process_response (model : List Char) (resp : ApiResponse) : CallResult :=
  match resp.error with
  | some msg =>
    { model := model, content := none, probability := none,
      usage := {}, error := some msg, status := .error, response_source := .api }
  | none =>
    let content := response_content resp
    let isRej := is_rejected content
    let prob0 := extract_probability content
    let probability :=
      match prob0 with
      | some v => if v < 0 ∨ v > 100 then none else some v
      | none => none
    { model := model, content := some content, probability := probability,
      usage := resp.usage, error := none,
      status := if isRej then .rejected else .success, response_source := .api }

/-- The `except asyncio.TimeoutError` result dictionary. -/
def timeout_result (model : List Char) : CallResult :=
  { model := model, content := none, probability := none,
    error := some "Request timeout".data, status := .timeout }

/-- The `except Exception` result dictionary. -/
def error_result (model msg : List Char) : CallResult :=
  { model := model, content := none, probability := none,
    error := some msg, status := .error }

/-- Exception classes distinguished by `query_model` and its `backoff`
decorator.  All of them subclass Python's `Exception`. -/
inductive ExcKind where
  | clientError
  | timeoutError
  | runtimeError
  | otherExc
  deriving Repr, DecidableEq

/-- What one execution of the try-block observes from `_post_completion`:
either a parsed response or a raised exception. -/
inductive BodyEvent where
  | resp (r : ApiResponse)
  | raised (k : ExcKind) (msg : List Char)

/-- A cache write performed by `query_model`: key and stored result. -/
abbrev CacheWrite := (List Char × List Char) × CallResult

/-- Modelled from the spec: the Response Cache contract of §4.1 —
`core/cache_manager.py` is not among the available sources.  A store keyed by
the exact `(model, prompt)` pair; `set` overwrites.  TTL expiry is time-based
state not exercised by the claims about `query_model` and is omitted. -/
abbrev Cache := List CacheWrite

/-- Cache lookup on the exact `(model, prompt)` key. -/
def cacheGet (c : Cache) (model prompt : List Char) : Option CallResult :=
  (c.find? (fun e => e.1.1 == model && e.1.2 == prompt)).map (·.2)

/-- Cache write-through; the new entry shadows any previous one. -/
def cacheSet (c : Cache) (model prompt : List Char) (r : CallResult) : Cache :=
  ((model, prompt), r) :: c

/-- Arguments of `query_model` that control caching. -/
structure QueryArgs where
  model : List Char
  prompt : List Char
  force_refresh : Bool := false
  use_cache : Bool := true

/-- Embeds the body of `query_model` after the cache check (lines 101-233):
the try/except result construction plus the write-through of lines 204-207.
Returns the result, the updated cache, and the cache writes performed. -/
def run_query (a : QueryArgs) (cache : Cache) (ev : BodyEvent) :
    CallResult × Cache × List CacheWrite :=
  match ev with
  | .raised .timeoutError _ => (timeout_result a.model, cache, [])
  | .raised _ msg => (error_result a.model msg, cache, [])
  | .resp r =>
    let res := process_response a.model r
    if a.use_cache ∧ res.status = .success then
      (res, cacheSet cache a.model a.prompt res, [((a.model, a.prompt), res)])
    else (res, cache, [])

/-- Embeds one (un-decorated) call of `query_model`: the cache consultation of
lines 76-82, then the body. -/
def query_model_once (a : QueryArgs) (cache : Cache) (ev : BodyEvent) :
    CallResult × Cache × List CacheWrite :=
  if a.use_cache ∧ a.force_refresh = false then
    match cacheGet cache a.model a.prompt with
    | some r => ({ r with response_source := .cache }, cache, [])
    | none => run_query a cache ev
  else run_query a cache ev

/-- The exception classes retried by `backoff.on_exception`
(`ClientError`, `asyncio.TimeoutError`). -/
def retryable (k : ExcKind) : Bool :=
  k = .clientError || k = .timeoutError

/-- One decorated attempt.  The try/except arms of `query_model` catch
`asyncio.TimeoutError` and every `Exception` — and `ClientError`,
`asyncio.TimeoutError` and `RuntimeError` all subclass `Exception` — so the
wrapped call returns normally on every `BodyEvent`: no exception ever
reaches the decorator. -/
def attempt_result (a : QueryArgs) (cache : Cache) (ev : BodyEvent) :
    Except ExcKind (CallResult × Cache × List CacheWrite) :=
  .ok (query_model_once a cache ev)

/-- Embeds `backoff.on_exception(backoff.expo, (ClientError, TimeoutError),
max_tries = 3, max_time = 60)`: re-invoke the wrapped body while it raises a
retryable exception, up to `remaining` total attempts.  Returns the final
outcome and the number of attempts made.  (The 60-second wall-clock cap only
tightens the attempt budget and needs no separate clock model.) -/
def backoff_run (body : ℕ → Except ExcKind α) : ℕ → ℕ → Except ExcKind α × ℕ
  | 0, made => (body made, made + 1)
  | 1, made => (body made, made + 1)
  | r + 2, made =>
    match body made with
    | .ok v => (.ok v, made + 1)
    | .error k =>
      if retryable k then backoff_run body (r + 1) (made + 1)
      else (.error k, made + 1)

/-- The decorated `query_model` as invoked by callers: at most 3 attempts,
where attempt `i` observes `evs i` from the transport. -/
def query_model_with_backoff (a : QueryArgs) (cache : Cache) (evs : ℕ → BodyEvent) :
    Except ExcKind (CallResult × Cache × List CacheWrite) × ℕ :=
  backoff_run (fun i => attempt_result a cache (evs i)) 3 0

/-- One scheduled query task of a run, tagged by model and iteration. -/
structure SchedTask where
  model : ℕ
  iteration : ℕ
  deriving Repr, DecidableEq

/-- State of the admission gate: tasks not yet started, in flight, finished. -/
structure SchedState where
  limit : ℕ
  pending : List SchedTask
  in_flight : List SchedTask
  done : List SchedTask
  deriving Repr, DecidableEq

/-- Modelled from the spec: §4.4/§5 — the per-run fan-out driver
(`core/ensemble_manager.py`) is not among the available sources; the spec
prescribes a single global admission gate of `concurrency_limit` across all
models of the run.  Its semaphore discipline as a transition system: a pending
task (of any model) may start only while fewer than `limit` tasks are in
flight; an in-flight task may finish.  Suspension points are exactly the
starts and finishes of network calls. -/
inductive SchedStep : SchedState → SchedState → Prop where
  | start (s : SchedState) (t : SchedTask) :
      t ∈ s.pending → s.in_flight.length < s.limit →
      SchedStep s ⟨s.limit, s.pending.erase t, t :: s.in_flight, s.done⟩
  | finish (s : SchedState) (t : SchedTask) :
      t ∈ s.in_flight →
      SchedStep s ⟨s.limit, s.pending, s.in_flight.erase t, t :: s.done⟩

/-- Reflexive-transitive closure of scheduler steps. -/
inductive SchedReach : SchedState → SchedState → Prop where
  | refl (s : SchedState) : SchedReach s s
  | tail {a b c : SchedState} : SchedReach a b → SchedStep b c → SchedReach a c

/-- The `iterations × models` task set of one run (iterations are 1-based, as
in `batch_query`). -/
def run_tasks (models iterations : ℕ) : List SchedTask :=
  (List.range models).flatMap fun m => (List.range iterations).map fun i => ⟨m, i + 1⟩

/-- Initial scheduler state of a run: every task pending, none in flight. -/
def init_sched (limit models iterations : ℕ) : SchedState :=
  ⟨limit, run_tasks models iterations, [], []⟩

/-- Modelled from the spec: §4.5 — `analysis/aggregator.py` is not among the
available sources.  Numeric aggregation operates only on probability-present
entries. -/
def numeric_probs (rs : List CallResult) : List ℚ :=
  rs.filterMap (·.probability)

/-- Modelled from the spec: per-model attempt counts include every CallResult
of that model, whatever its status. -/
def attempt_count (rs : List CallResult) (model : List Char) : ℕ :=
  (rs.filter (fun r => r.model == model)).length

/-- Modelled from the spec: the run summary's `successful_queries` is the
number of results with `status = success`. -/
def success_count (rs : List CallResult) : ℕ :=
  (rs.filter (fun r => r.status == .success)).length

/-- Job terminal status recorded by the web backend. -/
inductive JobStatus where
  | completed
  | failed
  deriving Repr, DecidableEq

/-- Embeds the decision logic of `run_forecast_task`
(src/web/backend/api.py): `successful_queries == 0` raises `RuntimeError`,
which the surrounding handler records as a "failed" job; otherwise the task
completes, returning every response — including per-call failures — as data. -/
def run_forecast_task (rs : List CallResult) : JobStatus × Option (List CallResult) :=
  if success_count rs = 0 then (.failed, none) else (.completed, some rs)

/-- Fractional part of a decimal numeral: empty, or a point and its digits. -/
def fracPart : List Char → List Char
  | [] => []
  | f :: fs => '.' :: f :: fs

/-- Decimal numeral built from integer digits `ds` and fractional digits `fs`
(empty `fs` meaning no decimal point), e.g. `numStr "42" "5" = "42.5"`. -/
def numStr (ds fs : List Char) : List Char :=
  ds ++ fracPart fs

/-- Exact value of the decimal numeral `numStr ds fs`. -/
def decVal (ds fs : List Char) : ℚ :=
  mkRat (digitsVal ds * 10 ^ fs.length + digitsVal fs) (10 ^ fs.length)

/-- A labelled structured marker line carrying a percentage, followed by
arbitrary further text: `label` then a space then `number` then `%`. -/
def marker_text (label number tail : List Char) : List Char :=
  label ++ ' ' :: (number ++ '%' :: tail)

/-- The head of `t` (if any) fails the class `f`. -/
def headNot (f : Char → Bool) : List Char → Prop
  | [] => True
  | c :: _ => f c = false

/-- The preceding-character marker after consuming `u` starting from `prev`. -/
def endPrev : List Char → Option Char → Option Char
  | [], prev => prev
  | c :: cs, _ => endPrev cs (some c)

/-! Theorems.  First the cache/retry/scheduler/aggregation claims, then the
extraction-cascade claims with their supporting matcher lemmas. -/

/-- The body of `query_model` performs at most one cache write, and only with
a success result. -/
theorem run_query_writes_spec (a : QueryArgs) (cache : Cache) (ev : BodyEvent) :
    (run_query a cache ev).2.2.length ≤ 1 ∧
      ∀ w ∈ (run_query a cache ev).2.2, w.2.status = .success := by
  cases ev with
  | raised k msg => cases k <;> simp [run_query]
  | resp r =>
    by_cases h : a.use_cache ∧ (process_response a.model r).status = .success
    · simp only [run_query, if_pos h]
      refine ⟨by simp, ?_⟩
      intro w hw
      simp only [List.mem_singleton] at hw
      subst hw
      exact h.2
    · simp [run_query, h]

/-- Claim C4: for every call to `query_model`, the cache is written at most
once, and only when the resulting CallResult has `status = success`; no
timeout, error or rejected result is ever stored. -/
theorem claim4_cache_write_once_success_only (a : QueryArgs) (cache : Cache) (ev : BodyEvent) :
    (query_model_once a cache ev).2.2.length ≤ 1 ∧
      ∀ w ∈ (query_model_once a cache ev).2.2, w.2.status = .success := by
  unfold query_model_once
  split
  · cases hget : cacheGet cache a.model a.prompt with
    | some r => simp
    | none => exact run_query_writes_spec a cache ev
  · exact run_query_writes_spec a cache ev

/-- Witness for C4 on a concrete successful call with caching enabled: one
write happens and the written result has success status. -/
theorem claim4_witness :
    ((query_model_once ⟨"m".data, "p".data, false, true⟩ []
        (.resp { choices := [⟨some "HAUPTPROGNOSE: 42%".data⟩] })).2.2.length ≤ 1) ∧
      ((("m".data, "p".data),
          process_response "m".data { choices := [⟨some "HAUPTPROGNOSE: 42%".data⟩] }).2.status
        = .success) :=
  ⟨(claim4_cache_write_once_success_only ⟨"m".data, "p".data, false, true⟩ []
      (.resp { choices := [⟨some "HAUPTPROGNOSE: 42%".data⟩] })).1,
   (claim4_cache_write_once_success_only ⟨"m".data, "p".data, false, true⟩ []
      (.resp { choices := [⟨some "HAUPTPROGNOSE: 42%".data⟩] })).2
     (("m".data, "p".data),
       process_response "m".data { choices := [⟨some "HAUPTPROGNOSE: 42%".data⟩] })
     (by decide)⟩

/-- Claim C3 (code-bug evidence): the `backoff` decorator on `query_model`
never retries.  Every exception — including the transient network and timeout
failures the retry policy targets — is caught inside the body and converted to
a normal return, so the decorator observes success on the first attempt for
every behaviour of the transport; a connection-reset failure produces a
`status = error` result after exactly one attempt instead of being retried. -/
theorem claim3_no_retry_single_attempt :
    (∀ (a : QueryArgs) (cache : Cache) (evs : ℕ → BodyEvent),
        (query_model_with_backoff a cache evs).2 = 1) ∧
      (query_model_with_backoff ⟨"m".data, "p".data, false, false⟩ []
          (fun _ => .raised .runtimeError "Connection reset by peer".data))
        = (.ok (error_result "m".data "Connection reset by peer".data, [], []), 1) := by
  exact ⟨fun a cache evs => rfl, rfl⟩

/-- Claim C5: a run is reported failed exactly when zero calls succeeded; any
run with at least one success returns normally, delivering every per-call
result (failures included) as data. -/
theorem claim5_failed_iff_zero_success (rs : List CallResult) :
    ((run_forecast_task rs).1 = .failed ↔ success_count rs = 0) ∧
      (success_count rs ≠ 0 → (run_forecast_task rs).2 = some rs) := by
  unfold run_forecast_task
  by_cases h : success_count rs = 0 <;> simp [h]

/-- Witness for C5 on a concrete partially-failed run (one success, one
timeout): the run is returned normally with both results as data. -/
theorem claim5_witness :
    (run_forecast_task [⟨"m".data, some [], some 42, {}, none, .success, .api⟩,
        timeout_result "m".data]).2
      = some [⟨"m".data, some [], some 42, {}, none, .success, .api⟩,
        timeout_result "m".data] :=
  (claim5_failed_iff_zero_success _).2 (by decide)

/-- Reachability preserves the gate's limit and the in-flight bound. -/
theorem sched_reach_invariant {limit : ℕ} {s0 s : SchedState}
    (h : SchedReach s0 s) (h0 : s0.limit = limit)
    (h1 : s0.in_flight.length ≤ limit) :
    s.limit = limit ∧ s.in_flight.length ≤ limit := by
  induction h with
  | refl => exact ⟨h0, h1⟩
  | tail hr hs ih =>
    obtain ⟨hl, hf⟩ := ih
    cases hs with
    | start t ht hlt =>
      exact ⟨hl, by simpa using Nat.succ_le_of_lt (hl ▸ hlt)⟩
    | finish t ht =>
      exact ⟨hl, le_trans (List.Sublist.length_le (List.erase_sublist _ _)) hf⟩

/-- Claim C6: at no point during a run are more than `concurrency_limit` tasks
in flight, the bound being one global admission gate across the tasks of all
models of the run. -/
theorem claim6_global_concurrency_bound (limit models iterations : ℕ)
    (s : SchedState) (h : SchedReach (init_sched limit models iterations) s) :
    s.in_flight.length ≤ limit :=
  (sched_reach_invariant h rfl (by simp [init_sched])).2

/-- Witness for C6: the state of a 2-model × 3-iteration run with limit 3
after admitting one task. -/
theorem claim6_witness :
    (SchedState.mk 3 ((run_tasks 2 3).erase ⟨0, 1⟩) [⟨0, 1⟩] []).in_flight.length ≤ 3 :=
  claim6_global_concurrency_bound 3 2 3 _
    (SchedReach.tail (SchedReach.refl _) (SchedStep.start _ ⟨0, 1⟩ (by decide) (by decide)))

/-- Claim C8: a backend response whose content contains (case-insensitively)
any refusal phrase yields `status = rejected`, regardless of whether a
probability was extracted from the content. -/
theorem claim8_refusal_yields_rejected (model : List Char) (resp : ApiResponse)
    (he : resp.error = none)
    (hr : is_rejected (response_content resp) = true) :
    (process_response model resp).status = .rejected := by
  unfold process_response
  rw [he]
  simp [hr]

/-- Witness for C8 on a concrete refusal response. -/
theorem claim8_witness :
    (process_response "m".data
        { choices := [⟨some "I must decline this request.".data⟩] }).status = .rejected :=
  claim8_refusal_yields_rejected "m".data
    { choices := [⟨some "I must decline this request.".data⟩] } rfl (by decide)

/-- Claim C9 counterexample: a rejected call whose refusal text contains an
extractable percentage keeps that probability — it is not absent. -/
theorem claim9_counterexample :
    (process_response "m".data
        { choices := [⟨some "I cannot comply with this request. Probability: 30%".data⟩] }).status
        = .rejected ∧
      (process_response "m".data
        { choices := [⟨some "I cannot comply with this request. Probability: 30%".data⟩] }).probability
        = some 30 := by
  decide

/-- Claim C9 amended: every rejected call still counts toward its model's
attempt count, and a call's probability is excluded from the numeric
aggregation input exactly when it is absent. -/
theorem claim9_rejected_counted_probability_excluded_when_absent
    (pre post : List CallResult) (r : CallResult) (hr : r.status = .rejected) :
    attempt_count (pre ++ r :: post) r.model = attempt_count (pre ++ post) r.model + 1 ∧
      (r.probability = none →
        numeric_probs (pre ++ r :: post) = numeric_probs (pre ++ post)) := by
  constructor
  · unfold attempt_count
    simp [List.filter_append]
    omega
  · intro hp
    unfold numeric_probs
    simp [List.filterMap_append, hp]

/-- Witness for the amended C9 at a concrete rejected call without
probability. -/
theorem claim9_witness :
    attempt_count [⟨"m".data, some [], none, {}, none, .rejected, .api⟩] "m".data
        = attempt_count [] "m".data + 1 ∧
      numeric_probs [⟨"m".data, some [], none, {}, none, .rejected, .api⟩] = numeric_probs [] :=
  ⟨(claim9_rejected_counted_probability_excluded_when_absent [] []
      ⟨"m".data, some [], none, {}, none, .rejected, .api⟩ rfl).1,
   (claim9_rejected_counted_probability_excluded_when_absent [] []
      ⟨"m".data, some [], none, {}, none, .rejected, .api⟩ rfl).2 rfl⟩

/-- A write-through shadows any previous entry for the same key. -/
theorem cacheGet_set_same (c : Cache) (m p : List Char) (r : CallResult) :
    cacheGet (cacheSet c m p r) m p = some r := by
  simp [cacheGet, cacheSet, List.find?]

/-- Claim C10: with `force_refresh = true` the cache lookup is skipped — the
call behaves exactly like the un-cached body on every cache content — and a
success result is still written through, shadowing any previous entry for that
(model, prompt) key. -/
theorem claim10_force_refresh_skips_lookup_still_writes
    (cache : Cache) (ev : BodyEvent) (m p : List Char) :
    query_model_once ⟨m, p, true, true⟩ cache ev = run_query ⟨m, p, true, true⟩ cache ev ∧
      ∀ r : ApiResponse, ev = .resp r → (process_response m r).status = .success →
        cacheGet (query_model_once ⟨m, p, true, true⟩ cache ev).2.1 m p
          = some (process_response m r) := by
  have hskip : query_model_once ⟨m, p, true, true⟩ cache ev
      = run_query ⟨m, p, true, true⟩ cache ev := by
    unfold query_model_once
    simp
  refine ⟨hskip, ?_⟩
  rintro r rfl hs
  rw [hskip]
  unfold run_query
  simp only [hs]
  simp [cacheGet_set_same]

/-- Witness for C10: concrete success call with a pre-existing cache entry for
the same key; the lookup is skipped and the entry is overwritten. -/
theorem claim10_witness :
    cacheGet ((query_model_once ⟨"m".data, "p".data, true, true⟩
        [(("m".data, "p".data), timeout_result "m".data)]
        (.resp { choices := [⟨some "HAUPTPROGNOSE: 42%".data⟩] })).2.1) "m".data "p".data
      = some (process_response "m".data { choices := [⟨some "HAUPTPROGNOSE: 42%".data⟩] }) :=
  (claim10_force_refresh_skips_lookup_still_writes
      [(("m".data, "p".data), timeout_result "m".data)]
      (.resp { choices := [⟨some "HAUPTPROGNOSE: 42%".data⟩] }) "m".data "p".data).2
    _ rfl (by decide)

/-- Claim C1 counterexample: on "Risk is 500%" the generic percentage-pattern
fallback returns its last match without any range check, and on
"forecast: 150-250 %" the keyword strategy's range-midpoint rule returns
`(150+250)/2` without any range check, so `_extract_probability` returns
values outside `[0,100]` on both. -/
theorem claim1_counterexample :
    (extract_probability "Risk is 500%".data = some 500 ∧ ¬ ((500 : ℚ) ≤ 100)) ∧
      (extract_probability "forecast: 150-250 %".data = some 200 ∧ ¬ ((200 : ℚ) ≤ 100)) := by
  refine ⟨⟨by decide, by decide⟩, ?_, by norm_num⟩
  have h1 : extract_probability "forecast: 150-250 %".data
      = some ((parseDec "150".data + parseDec "250".data) / 2) := rfl
  rw [h1, show parseDec "150".data = (150 : ℚ) from by decide,
      show parseDec "250".data = (250 : ℚ) from by decide]
  norm_num

/-- Claim C1 amended: the `[0,100]` guarantee holds one level up — after
`query_model`'s final bounds validation, a CallResult built from a backend
response never carries a probability outside `[0,100]`. -/
theorem claim1_callresult_probability_in_range (model : List Char) (resp : ApiResponse)
    (v : ℚ) (h : (process_response model resp).probability = some v) :
    0 ≤ v ∧ v ≤ 100 := by
  unfold process_response at h
  cases he : resp.error with
  | some msg =>
    rw [he] at h
    simp at h
  | none =>
    rw [he] at h
    simp only [] at h
    cases hx : extract_probability (response_content resp) with
    | none => simp [hx] at h
    | some w =>
      simp only [hx] at h
      by_cases hw : w < 0 ∨ w > 100
      · simp [if_pos hw] at h
      · simp [if_neg hw] at h
        push_neg at hw
        exact h ▸ hw

/-- Witness for the amended C1 at a concrete in-range extraction. -/
theorem claim1_witness :
    (process_response "m".data { choices := [⟨some "HAUPTPROGNOSE: 42%".data⟩] }).probability
        = some 42 ∧
      (0 : ℚ) ≤ 42 ∧ (42 : ℚ) ≤ 100 :=
  ⟨by decide,
   claim1_callresult_probability_in_range "m".data
     { choices := [⟨some "HAUPTPROGNOSE: 42%".data⟩] } 42 (by decide)⟩

/-! Matcher lemmas supporting the symbolic extraction-cascade proofs. -/

theorem mat_seq (a b : RE) (prev : Option Char) (s : List Char)
    (cap : Option (List Char)) (k : K) :
    mat (.seq a b) prev s cap k = mat a prev s cap (fun p s' c => mat b p s' c k) := rfl

theorem mat_eps (prev : Option Char) (s : List Char) (cap : Option (List Char)) (k : K) :
    mat .eps prev s cap k = k prev s cap := rfl

theorem mat_ch_cons (c x : Char) (xs : List Char) (prev : Option Char)
    (cap : Option (List Char)) (k : K) :
    mat (.ch c) prev (x :: xs) cap k
      = if x.toLower = c.toLower then k (some x) xs cap else none := rfl

theorem mat_ch_nil (c : Char) (prev : Option Char) (cap : Option (List Char)) (k : K) :
    mat (.ch c) prev [] cap k = none := rfl

theorem mat_grp (a : RE) (prev : Option Char) (s : List Char)
    (cap : Option (List Char)) (k : K) :
    mat (.grp a) prev s cap k
      = mat a prev s cap (fun p s' _ => k p s' (some (s.take (s.length - s'.length)))) := rfl

theorem mat_quest (a : RE) (prev : Option Char) (s : List Char)
    (cap : Option (List Char)) (k : K) :
    mat (.quest a) prev s cap k = (mat a prev s cap k <|> k prev s cap) := rfl

theorem mat_slit_append (cs t : List Char) (prev : Option Char)
    (cap : Option (List Char)) (k : K) :
    mat (slit cs) prev (cs ++ t) cap k = k (endPrev cs prev) t cap := by
  induction cs generalizing prev with
  | nil => rfl
  | cons c cs ih =>
    show mat (.seq (.ch c) (slit cs)) prev (c :: (cs ++ t)) cap k = _
    rw [mat_seq, mat_ch_cons, if_pos rfl]
    exact ih (some c)

theorem runLen_all_append (f : Char → Bool) (u t : List Char)
    (hu : ∀ c ∈ u, f c = true) (ht : headNot f t) :
    runLen f (u ++ t) = u.length := by
  induction u with
  | nil =>
    cases t with
    | nil => rfl
    | cons c cs =>
      have hc : f c = false := ht
      simp [runLen, List.takeWhile_cons, hc]
  | cons c cs ih =>
    have hc : f c = true := hu c (List.mem_cons_self c cs)
    have ih' := ih (fun d hd => hu d (List.mem_cons_of_mem _ hd))
    simp only [runLen] at ih' ⊢
    simp [List.takeWhile_cons, hc, ih']

theorem advance_append (u t : List Char) (prev : Option Char) :
    advance prev (u ++ t) u.length = (endPrev u prev, t) := by
  induction u generalizing prev with
  | nil => simp [advance, endPrev]
  | cons c cs ih =>
    simp only [List.cons_append, List.length_cons]
    rw [show advance prev (c :: (cs ++ t)) (cs.length + 1)
          = advance (some c) (cs ++ t) cs.length from rfl]
    rw [ih]
    rfl

theorem cntDown_head (n : ℕ) : ∃ l, cntDown n = n :: l := by
  cases n <;> exact ⟨_, rfl⟩

theorem tryCnt_cons (k : K) (prev : Option Char) (s : List Char)
    (cap : Option (List Char)) (n : ℕ) (ns : List ℕ) :
    tryCnt k prev s cap (n :: ns)
      = ((k (advance prev s n).1 (advance prev s n).2 cap) <|> tryCnt k prev s cap ns) := rfl

theorem mat_starG_succeed (f : Char → Bool) (u t : List Char) (prev : Option Char)
    (cap : Option (List Char)) (k : K) (m : MRes)
    (hu : ∀ c ∈ u, f c = true) (ht : headNot f t)
    (hk : k (endPrev u prev) t cap = some m) :
    mat (.starG f) prev (u ++ t) cap k = some m := by
  show tryCnt k prev (u ++ t) cap (cntDown (runLen f (u ++ t))) = some m
  rw [runLen_all_append f u t hu ht]
  obtain ⟨l, hl⟩ := cntDown_head u.length
  rw [hl, tryCnt_cons, advance_append]
  simp [hk]

theorem mat_plus_succeed (f : Char → Bool) (d : Char) (ds t : List Char)
    (prev : Option Char) (cap : Option (List Char)) (k : K) (m : MRes)
    (hu : ∀ c ∈ d :: ds, f c = true) (ht : headNot f t)
    (hk : k (endPrev (d :: ds) prev) t cap = some m) :
    mat (.plus f) prev ((d :: ds) ++ t) cap k = some m := by
  show tryCnt k prev ((d :: ds) ++ t) cap (cntDownPos (runLen f ((d :: ds) ++ t))) = some m
  rw [runLen_all_append f (d :: ds) t hu ht]
  simp only [List.length_cons]
  rw [show cntDownPos (ds.length + 1) = (ds.length + 1) :: cntDownPos ds.length from rfl]
  rw [tryCnt_cons]
  have ha := advance_append (d :: ds) t prev
  simp only [List.length_cons] at ha
  rw [ha]
  simp [hk]

theorem mat_quest_first (a : RE) (prev : Option Char) (s : List Char)
    (cap : Option (List Char)) (k : K) (m : MRes)
    (h : mat a prev s cap k = some m) : mat (.quest a) prev s cap k = some m := by
  rw [mat_quest, h]
  rfl

theorem mat_quest_second (a : RE) (prev : Option Char) (s : List Char)
    (cap : Option (List Char)) (k : K)
    (h : mat a prev s cap k = none) : mat (.quest a) prev s cap k = k prev s cap := by
  rw [mat_quest, h]
  rfl

theorem digit_toLower_self (c : Char) (h : c.isDigit = true) : c.toLower = c := by
  simp [Char.isDigit] at h
  obtain ⟨h1, h2⟩ := h
  simp only [Char.toLower, Char.toNat]
  rw [if_neg]
  rintro ⟨h65, -⟩
  rw [UInt32.le_def, BitVec.le_def] at h2
  rw [show (UInt32.toBitVec 57).toNat = 57 from rfl] at h2
  simp only [UInt32.toNat] at h65
  omega

theorem digit_ne_of {c : Char} (d : Char) (h : c.isDigit = true) (hd : d.isDigit = false) :
    c ≠ d := by
  rintro rfl
  rw [h] at hd
  exact Bool.noConfusion hd

theorem digit_not_spc (c : Char) (h : c.isDigit = true) : isSpc c = false := by
  have h1 := digit_ne_of ' ' h (by decide)
  have h2 := digit_ne_of '\t' h (by decide)
  have h3 := digit_ne_of '\n' h (by decide)
  have h4 := digit_ne_of '\r' h (by decide)
  have h5 := digit_ne_of '\x0b' h (by decide)
  have h6 := digit_ne_of '\x0c' h (by decide)
  simp [isSpc, h1, h2, h3, h4, h5, h6]

theorem digit_toLower_ne (c e : Char) (h : c.isDigit = true) (he : e.isDigit = false) :
    c.toLower ≠ e := by
  rw [digit_toLower_self c h]
  exact digit_ne_of e h he

theorem mat_starG_skip (f : Char → Bool) (s : List Char) (prev : Option Char)
    (cap : Option (List Char)) (k : K) (m : MRes)
    (ht : headNot f s) (hk : k prev s cap = some m) :
    mat (.starG f) prev s cap k = some m := by
  simpa using mat_starG_succeed f [] s prev cap k m (by simp) ht hk

theorem take_append2_len_sub (a b v : List Char) :
    (a ++ (b ++ v)).take ((a ++ (b ++ v)).length - v.length) = a ++ b := by
  rw [← List.append_assoc]
  rw [show ((a ++ b) ++ v).length - v.length = (a ++ b).length from by
    simp [List.length_append]
    omega]
  exact List.take_left (a ++ b) v

/-- After the capture group of a marker pattern, a `%` followed by anything
completes the match with the expected result record. -/
theorem marker_tail_finish (capd tail : List Char) (p : Option Char) :
    mat (.seq sp (.seq (.ch '%') .eps)) p ('%' :: tail)
        (some capd) (fun p' s' c => some ⟨c, p', s'⟩)
      = some ⟨some capd, some '%', tail⟩ := by
  rw [mat_seq]
  refine mat_starG_skip isSpc _ _ _ _ _ ?_ ?_
  · show isSpc '%' = false
    decide
  · show mat (.seq (.ch '%') .eps) p ('%' :: tail) (some capd)
        (fun p' s' c => some ⟨c, p', s'⟩) = _
    rw [mat_seq, mat_ch_cons, if_pos rfl]
    rfl

/-- Anchored match of a structured marker pattern
`LABEL\s*(\d+(?:\.\d+)?)\s*%` against `LABEL` + space + decimal numeral + `%`:
the greedy backtracking path succeeds on its first branch and captures exactly
the numeral. -/
theorem matchAt_marker (label ds fs tail : List Char) (prev : Option Char)
    (hds : ∀ c ∈ ds, c.isDigit = true) (hne : ds ≠ [])
    (hfs : ∀ c ∈ fs, c.isDigit = true) :
    matchAt (seqs [slit label, sp, num, sp, .ch '%']) prev
        (marker_text label (numStr ds fs) tail)
      = some ⟨some (numStr ds fs), some '%', tail⟩ := by
  obtain ⟨d, ds', rfl⟩ : ∃ d ds', ds = d :: ds' := by
    cases ds with
    | nil => exact absurd rfl hne
    | cons a b => exact ⟨a, b, rfl⟩
  show mat (.seq (slit label) (.seq sp (.seq num (.seq sp (.seq (.ch '%') .eps))))) prev
      (label ++ ' ' :: (numStr (d :: ds') fs ++ '%' :: tail)) none
      (fun p s' c => some ⟨c, p, s'⟩)
    = some ⟨some (numStr (d :: ds') fs), some '%', tail⟩
  simp only [numStr, List.append_assoc]
  rw [mat_seq, mat_slit_append]
  show mat (.seq sp (.seq num (.seq sp (.seq (.ch '%') .eps)))) (endPrev label prev)
      (' ' :: ((d :: ds') ++ (fracPart fs ++ '%' :: tail))) none
      (fun p s' c => some ⟨c, p, s'⟩) = _
  rw [mat_seq]
  rw [show (' ' :: ((d :: ds') ++ (fracPart fs ++ '%' :: tail)))
        = [' '] ++ ((d :: ds') ++ (fracPart fs ++ '%' :: tail)) from rfl]
  refine mat_starG_succeed isSpc [' '] _ _ _ _ _ (by decide) ?_ ?_
  · show isSpc d = false
    exact digit_not_spc d (hds d (List.mem_cons_self d ds'))
  · show mat (.seq num (.seq sp (.seq (.ch '%') .eps))) (some ' ')
        ((d :: ds') ++ (fracPart fs ++ '%' :: tail)) none
        (fun p s' c => some ⟨c, p, s'⟩) = _
    rw [mat_seq]
    rw [show num
          = .grp (.seq (.plus Char.isDigit)
              (.quest (.seq (.ch '.') (.plus Char.isDigit)))) from rfl]
    rw [mat_grp, mat_seq]
    refine mat_plus_succeed Char.isDigit d ds' _ _ _ _ _ hds ?_ ?_
    · cases fs with
      | nil =>
        show Char.isDigit '%' = false
        decide
      | cons f fs' =>
        show Char.isDigit '.' = false
        decide
    · cases fs with
      | nil =>
        refine Eq.trans (mat_quest_second _ _ _ _ _ ?_) ?_
        · rw [mat_seq]
          rw [show fracPart ([] : List Char) ++ '%' :: tail = '%' :: tail from rfl]
          rw [mat_ch_cons, if_neg (by decide)]
        · show (fun p s' c => mat (.seq sp (.seq (.ch '%') .eps)) p s' c
                (fun p' s'' c' => some ⟨c', p', s''⟩))
              (endPrev (d :: ds') (some ' ')) ('%' :: tail)
              (some (((d :: ds') ++ (fracPart [] ++ '%' :: tail)).take
                (((d :: ds') ++ (fracPart [] ++ '%' :: tail)).length
                  - ('%' :: tail).length))) = _
          rw [take_append2_len_sub]
          exact marker_tail_finish _ tail _
      | cons f fs' =>
        refine mat_quest_first _ _ _ _ _ _ ?_
        rw [mat_seq]
        show mat (.ch '.') (endPrev (d :: ds') (some ' '))
            ('.' :: ((f :: fs') ++ '%' :: tail)) none _ = _
        rw [mat_ch_cons, if_pos rfl]
        show mat (.plus Char.isDigit) (some '.') ((f :: fs') ++ '%' :: tail) none _ = _
        refine mat_plus_succeed Char.isDigit f fs' _ _ _ _ _ hfs ?_ ?_
        · show Char.isDigit '%' = false
          decide
        · show (fun p s' c => mat (.seq sp (.seq (.ch '%') .eps)) p s' c
                (fun p' s'' c' => some ⟨c', p', s''⟩))
              (endPrev (f :: fs') (some '.')) ('%' :: tail)
              (some (((d :: ds') ++ (fracPart (f :: fs') ++ '%' :: tail)).take
                (((d :: ds') ++ (fracPart (f :: fs') ++ '%' :: tail)).length
                  - ('%' :: tail).length))) = _
          rw [take_append2_len_sub]
          exact marker_tail_finish _ tail _

theorem searchAux_of_matchAt {r : RE} {prev : Option Char} {s : List Char} {m : MRes}
    (h : matchAt r prev s = some m) : searchAux r prev s = some m := by
  rw [searchAux.eq_def, h]
  rfl

theorem reSearch_marker (label ds fs tail : List Char)
    (hds : ∀ c ∈ ds, c.isDigit = true) (hne : ds ≠ [])
    (hfs : ∀ c ∈ fs, c.isDigit = true) :
    reSearch (seqs [slit label, sp, num, sp, .ch '%'])
        (marker_text label (numStr ds fs) tail) = some (numStr ds fs) := by
  unfold reSearch
  rw [searchAux_of_matchAt (matchAt_marker label ds fs tail none hds hne hfs)]
  rfl

theorem takeWhile_dropWhile_all_append (p : Char → Bool) (u t : List Char)
    (hu : ∀ c ∈ u, p c = true) (ht : headNot p t) :
    (u ++ t).takeWhile p = u ∧ (u ++ t).dropWhile p = t := by
  induction u with
  | nil =>
    cases t with
    | nil => simp
    | cons c cs =>
      have hc : p c = false := ht
      simp [List.takeWhile_cons, List.dropWhile_cons, hc]
  | cons c cs ih =>
    have hc : p c = true := hu c (List.mem_cons_self c cs)
    have ih' := ih (fun e he => hu e (List.mem_cons_of_mem _ he))
    simp [List.takeWhile_cons, List.dropWhile_cons, hc, ih'.1, ih'.2]

theorem parseDec_numStr (ds fs : List Char)
    (hds : ∀ c ∈ ds, c.isDigit = true) (hfs : ∀ c ∈ fs, c.isDigit = true) :
    parseDec (numStr ds fs) = decVal ds fs := by
  have hp : ∀ c ∈ ds, (c != '.') = true := fun c hc => by
    simp [bne_iff_ne]
    exact digit_ne_of '.' (hds c hc) (by decide)
  cases fs with
  | nil =>
    have h := takeWhile_dropWhile_all_append (fun c => c != '.') ds [] hp trivial
    simp only [List.append_nil] at h
    simp only [numStr, fracPart, List.append_nil]
    simp [parseDec, h.1, h.2, decVal, digitsVal]
  | cons f fs' =>
    have hnot : headNot (fun c => c != '.') ('.' :: f :: fs') := by
      show ('.' != '.') = false
      decide
    have h := takeWhile_dropWhile_all_append (fun c => c != '.') ds ('.' :: f :: fs') hp hnot
    simp only [numStr, fracPart]
    simp [parseDec, h.1, h.2, decVal]

theorem decVal_nonneg (ds fs : List Char) : 0 ≤ decVal ds fs := by
  unfold decVal
  rw [Rat.mkRat_eq_div]
  positivity

theorem tryPatterns_cons_some (p : RE) (ps : List RE) (content capd : List Char)
    (h : reSearch p content = some capd)
    (h0 : 0 ≤ parseDec capd) (h100 : parseDec capd ≤ 100) :
    tryPatterns (p :: ps) content = some (parseDec capd) := by
  unfold tryPatterns
  rw [List.findSome?_cons]
  simp only [h]
  rw [if_pos ⟨h0, h100⟩]

theorem tryPatterns_cons_none (p : RE) (ps : List RE) (content : List Char)
    (h : reSearch p content = none) :
    tryPatterns (p :: ps) content = tryPatterns ps content := by
  unfold tryPatterns
  rw [List.findSome?_cons]
  simp only [h]

theorem searchAux_label_none (c0 : Char) (lr : List Char) (R : RE) (s : List Char)
    (prev : Option Char) (hs : ∀ x ∈ s, x.toLower ≠ c0.toLower) :
    searchAux (.seq (slit (c0 :: lr)) R) prev s = none := by
  induction s generalizing prev with
  | nil =>
    rw [searchAux.eq_def]
    rw [show matchAt (.seq (slit (c0 :: lr)) R) prev [] = none from rfl]
    rfl
  | cons x xs ih =>
    rw [searchAux.eq_def]
    have hm : matchAt (.seq (slit (c0 :: lr)) R) prev (x :: xs) = none := by
      show mat (.seq (.seq (.ch c0) (slit lr)) R) prev (x :: xs) none _ = none
      rw [mat_seq, mat_seq, mat_ch_cons, if_neg (hs x (List.mem_cons_self x xs))]
    rw [hm]
    exact ih (some x) (fun y hy => hs y (List.mem_cons_of_mem _ hy))

theorem reSearch_label_none (c0 : Char) (lr : List Char) (R : RE) (s : List Char)
    (hs : ∀ x ∈ s, x.toLower ≠ c0.toLower) :
    reSearch (.seq (slit (c0 :: lr)) R) s = none := by
  unfold reSearch
  rw [searchAux_label_none c0 lr R s none hs]
  rfl

/-- The extraction cascade on a HAUPTPROGNOSE marker text: the first strategy
matches at position 0 with the numeral as its capture and wins. -/
theorem extract_hauptprognose (ds fs tail : List Char)
    (hds : ∀ c ∈ ds, c.isDigit = true) (hne : ds ≠ [])
    (hfs : ∀ c ∈ fs, c.isDigit = true) (hv : decVal ds fs ≤ 100) :
    extract_probability (marker_text "HAUPTPROGNOSE:".data (numStr ds fs) tail)
      = some (decVal ds fs) := by
  have hsearch := reSearch_marker "HAUPTPROGNOSE:".data ds fs tail hds hne hfs
  have hparse := parseDec_numStr ds fs hds hfs
  have hfirst : tryPatterns hauptprognose_patterns
      (marker_text "HAUPTPROGNOSE:".data (numStr ds fs) tail) = some (decVal ds fs) := by
    unfold hauptprognose_patterns
    rw [tryPatterns_cons_some _ _ _ _ hsearch
      (by rw [hparse]; exact decVal_nonneg ds fs) (by rw [hparse]; exact hv), hparse]
  unfold extract_probability
  rw [if_neg (by simp [marker_text])]
  rw [hfirst]
  rfl

theorem mem_numStr (ds fs : List Char) (x : Char) (hx : x ∈ numStr ds fs) :
    x ∈ ds ∨ x = '.' ∨ x ∈ fs := by
  unfold numStr at hx
  rcases List.mem_append.mp hx with h | h
  · exact Or.inl h
  · cases fs with
    | nil => simp [fracPart] at h
    | cons f fs' =>
      rcases List.mem_cons.mp h with rfl | h2
      · exact Or.inr (Or.inl rfl)
      · exact Or.inr (Or.inr h2)

/-- No character of a PROGNOSE marker text lowercases to `h` or `*`, so none
of the four HAUPTPROGNOSE patterns can start a match anywhere in it. -/
theorem pMark_chars (ds fs : List Char)
    (hds : ∀ c ∈ ds, c.isDigit = true) (hfs : ∀ c ∈ fs, c.isDigit = true) :
    ∀ x ∈ marker_text "PROGNOSE:".data (numStr ds fs) [],
      x.toLower ≠ 'h' ∧ x.toLower ≠ '*' := by
  have hcon : ∀ y ∈ "PROGNOSE:".data, y.toLower ≠ 'h' ∧ y.toLower ≠ '*' := by decide
  have hdig : ∀ y : Char, y.isDigit = true → y.toLower ≠ 'h' ∧ y.toLower ≠ '*' :=
    fun y hy => ⟨digit_toLower_ne y 'h' hy (by decide), digit_toLower_ne y '*' hy (by decide)⟩
  intro x hx
  unfold marker_text at hx
  rcases List.mem_append.mp hx with h | h
  · exact hcon x h
  · rcases List.mem_cons.mp h with rfl | h2
    · decide
    · rcases List.mem_append.mp h2 with h3 | h4
      · rcases mem_numStr ds fs x h3 with h5 | h5 | h5
        · exact hdig x (hds x h5)
        · subst h5; decide
        · exact hdig x (hfs x h5)
      · rcases List.mem_cons.mp h4 with rfl | h5
        · decide
        · simp at h5

/-- The extraction cascade on a legacy PROGNOSE marker text: every
HAUPTPROGNOSE pattern fails everywhere, and the first legacy pattern wins. -/
theorem extract_prognose (ds fs : List Char)
    (hds : ∀ c ∈ ds, c.isDigit = true) (hne : ds ≠ [])
    (hfs : ∀ c ∈ fs, c.isDigit = true) (hv : decVal ds fs ≤ 100) :
    extract_probability (marker_text "PROGNOSE:".data (numStr ds fs) [])
      = some (decVal ds fs) := by
  have hchars := pMark_chars ds fs hds hfs
  have hH : ∀ x ∈ marker_text "PROGNOSE:".data (numStr ds fs) [],
      x.toLower ≠ 'H'.toLower :=
    fun x hx => by
      rw [show 'H'.toLower = 'h' from rfl]
      exact (hchars x hx).1
  have hS : ∀ x ∈ marker_text "PROGNOSE:".data (numStr ds fs) [],
      x.toLower ≠ '*'.toLower :=
    fun x hx => by
      rw [show '*'.toLower = '*' from rfl]
      exact (hchars x hx).2
  have h1 : reSearch (seqs [slit "HAUPTPROGNOSE:".data, sp, num, sp, .ch '%'])
      (marker_text "PROGNOSE:".data (numStr ds fs) []) = none :=
    reSearch_label_none 'H' "AUPTPROGNOSE:".data (seqs [sp, num, sp, .ch '%']) _ hH
  have h2 : reSearch (seqs [slit "**HAUPTPROGNOSE:".data, sp, num, sp, slit "%**".data])
      (marker_text "PROGNOSE:".data (numStr ds fs) []) = none :=
    reSearch_label_none '*' "*HAUPTPROGNOSE:".data
      (seqs [sp, num, sp, slit "%**".data]) _ hS
  have h3 : reSearch (seqs [slit "HAUPTPROGNOSE:".data, sp, slit "**".data, num, sp,
        slit "%**".data])
      (marker_text "PROGNOSE:".data (numStr ds fs) []) = none :=
    reSearch_label_none 'H' "AUPTPROGNOSE:".data
      (seqs [sp, slit "**".data, num, sp, slit "%**".data]) _ hH
  have h4 : reSearch (seqs [slit "HAUPTPROGNOSE:".data, sp, num])
      (marker_text "PROGNOSE:".data (numStr ds fs) []) = none :=
    reSearch_label_none 'H' "AUPTPROGNOSE:".data (seqs [sp, num]) _ hH
  have hh : tryPatterns hauptprognose_patterns
      (marker_text "PROGNOSE:".data (numStr ds fs) []) = none := by
    unfold hauptprognose_patterns
    rw [tryPatterns_cons_none _ _ _ h1, tryPatterns_cons_none _ _ _ h2,
        tryPatterns_cons_none _ _ _ h3, tryPatterns_cons_none _ _ _ h4]
    rfl
  have hsearch := reSearch_marker "PROGNOSE:".data ds fs [] hds hne hfs
  have hparse := parseDec_numStr ds fs hds hfs
  have hsecond : tryPatterns prognose_patterns
      (marker_text "PROGNOSE:".data (numStr ds fs) []) = some (decVal ds fs) := by
    unfold prognose_patterns
    rw [tryPatterns_cons_some _ _ _ _ hsearch
      (by rw [hparse]; exact decVal_nonneg ds fs) (by rw [hparse]; exact hv), hparse]
  unfold extract_probability
  rw [if_neg (by simp [marker_text])]
  rw [hh, Option.none_orElse, hsecond]
  rfl

/-- Claim C2: for a text carrying both the primary structured marker with
value p and a conflicting generic percentage mention elsewhere, the cascade
returns p — the first (highest-priority) strategy wins. -/
theorem claim2_primary_marker_wins (ds fs qs : List Char)
    (hds : ∀ c ∈ ds, c.isDigit = true) (hne : ds ≠ [])
    (hfs : ∀ c ∈ fs, c.isDigit = true)
    (hqs : ∀ c ∈ qs, c.isDigit = true) (hqne : qs ≠ [])
    (hv : decVal ds fs ≤ 100) :
    extract_probability (marker_text "HAUPTPROGNOSE:".data (numStr ds fs)
        ("\nOther sources mention ".data ++ qs ++ "% elsewhere.".data))
      = some (decVal ds fs) :=
  extract_hauptprognose ds fs _ hds hne hfs hv

/-- Witness for C2: marker value 42 wins over the conflicting generic
mention of 77%. -/
theorem claim2_witness :
    extract_probability (marker_text "HAUPTPROGNOSE:".data (numStr "42".data [])
        ("\nOther sources mention ".data ++ "77".data ++ "% elsewhere.".data))
      = some 42 := by
  have h := claim2_primary_marker_wins "42".data [] "77".data (by decide) (by decide)
    (by decide) (by decide) (by decide) (by decide)
  rw [h]
  decide

/-! Failure analysis for the matcher: a pattern can fail at a position either
because its leading literal mismatches, or because every backtracking branch
of its quantifiers is exhausted.  These lemmas let the cascade proofs show
that the higher-priority patterns yield no match anywhere in a text. -/

theorem toLower_ne_lit {x e : Char} (he : e.toLower = e) (h : x.toLower ≠ e) :
    x.toLower ≠ e.toLower := by
  rw [he]
  exact h

theorem advance_zero (prev : Option Char) (s : List Char) :
    advance prev s 0 = (prev, s) := by
  simp [advance]

theorem advance_one_cons (prev : Option Char) (x : Char) (xs : List Char) :
    advance prev (x :: xs) 1 = (some x, xs) := by
  simp [advance]

theorem mem_cntDown {n m : ℕ} : n ∈ cntDown m ↔ n ≤ m := by
  induction m with
  | zero => simp [cntDown]
  | succ m ih =>
    simp [cntDown, ih]
    omega

theorem mem_cntDownPos {n m : ℕ} : n ∈ cntDownPos m ↔ 1 ≤ n ∧ n ≤ m := by
  induction m with
  | zero =>
    simp [cntDownPos]
    omega
  | succ m ih =>
    simp [cntDownPos, ih]
    omega

theorem tryCnt_none (k : K) (prev : Option Char) (s : List Char)
    (cap : Option (List Char)) (ns : List ℕ)
    (h : ∀ n ∈ ns, k (advance prev s n).1 (advance prev s n).2 cap = none) :
    tryCnt k prev s cap ns = none := by
  induction ns with
  | nil => rfl
  | cons n ns ih =>
    rw [tryCnt_cons, h n (List.mem_cons_self n ns), Option.none_orElse]
    exact ih (fun m hm => h m (List.mem_cons_of_mem _ hm))

theorem runLen_zero (f : Char → Bool) (s : List Char) (h : headNot f s) :
    runLen f s = 0 := by
  cases s with
  | nil => rfl
  | cons c cs =>
    have hc : f c = false := h
    simp [runLen, List.takeWhile_cons, hc]

theorem mat_starG_none (f : Char → Bool) (s : List Char) (prev : Option Char)
    (cap : Option (List Char)) (k : K)
    (h : ∀ n ∈ cntDown (runLen f s),
      k (advance prev s n).1 (advance prev s n).2 cap = none) :
    mat (.starG f) prev s cap k = none :=
  tryCnt_none k prev s cap _ h

theorem mat_plus_none (f : Char → Bool) (s : List Char) (prev : Option Char)
    (cap : Option (List Char)) (k : K)
    (h : ∀ n ∈ cntDownPos (runLen f s),
      k (advance prev s n).1 (advance prev s n).2 cap = none) :
    mat (.plus f) prev s cap k = none :=
  tryCnt_none k prev s cap _ h

theorem mat_quest_none (a : RE) (prev : Option Char) (s : List Char)
    (cap : Option (List Char)) (k : K)
    (h1 : mat a prev s cap k = none) (h2 : k prev s cap = none) :
    mat (.quest a) prev s cap k = none := by
  rw [mat_quest, h1, Option.none_orElse]
  exact h2

theorem advance_append_le (u t : List Char) (prev : Option Char) (n : ℕ)
    (h : n ≤ u.length) :
    advance prev (u ++ t) n = (endPrev (u.take n) prev, u.drop n ++ t) := by
  induction n generalizing u prev with
  | zero => simp [advance, endPrev]
  | succ n ih =>
    cases u with
    | nil => simp at h
    | cons c cs =>
      rw [show advance prev ((c :: cs) ++ t) (n + 1) = advance (some c) (cs ++ t) n from rfl]
      rw [ih cs (some c) (by simpa using h)]
      rfl

theorem endPrev_append (u v : List Char) (p : Option Char) :
    endPrev (u ++ v) p = endPrev v (endPrev u p) := by
  induction u generalizing p with
  | nil => rfl
  | cons c cs ih => exact ih (some c)

theorem mat_num_head_fail (R : RE) (s : List Char) (prev : Option Char)
    (cap : Option (List Char)) (k : K) (h : headNot Char.isDigit s) :
    mat (.seq num R) prev s cap k = none := by
  rw [mat_seq, show num = .grp (.seq (.plus Char.isDigit)
        (.quest (.seq (.ch '.') (.plus Char.isDigit)))) from rfl, mat_grp, mat_seq]
  apply mat_plus_none
  intro n hn
  rw [runLen_zero Char.isDigit s h, mem_cntDownPos] at hn
  omega

theorem pct_fail_head (w : List Char) (prev : Option Char) (cap : Option (List Char))
    (k : K)
    (hw : match w with | [] => True | c :: _ => isSpc c = false ∧ c.toLower ≠ '%') :
    mat (.seq sp (.seq (.ch '%') .eps)) prev w cap k = none := by
  rw [mat_seq]
  apply mat_starG_none
  intro n hn
  have hz : runLen isSpc w = 0 := by
    refine runLen_zero isSpc w ?_
    cases w with
    | nil => trivial
    | cons c cs => exact hw.1
  rw [hz, mem_cntDown, Nat.le_zero] at hn
  subst hn
  rw [advance_zero]
  cases w with
  | nil => rfl
  | cons c cs =>
    show mat (.seq (.ch '%') .eps) prev (c :: cs) cap k = none
    rw [mat_seq, mat_ch_cons, if_neg (toLower_ne_lit (by decide) hw.2)]

theorem num_pct_end_fail (ds fs : List Char) (prev : Option Char)
    (cap : Option (List Char)) (k : K)
    (hds : ∀ c ∈ ds, c.isDigit = true) (hfs : ∀ c ∈ fs, c.isDigit = true) :
    mat (.seq num (.seq sp (.seq (.ch '%') .eps))) prev (ds ++ fracPart fs) cap k
      = none := by
  rw [mat_seq, show num = .grp (.seq (.plus Char.isDigit)
        (.quest (.seq (.ch '.') (.plus Char.isDigit)))) from rfl, mat_grp, mat_seq]
  apply mat_plus_none
  intro n hn
  have hfr : headNot Char.isDigit (fracPart fs) := by
    cases fs with
    | nil => trivial
    | cons f fs' =>
      show Char.isDigit '.' = false
      decide
  rw [runLen_all_append Char.isDigit ds (fracPart fs) hds hfr, mem_cntDownPos] at hn
  rw [advance_append_le ds (fracPart fs) prev n hn.2]
  apply mat_quest_none
  · by_cases hlt : n < ds.length
    · rw [List.drop_eq_getElem_cons hlt, List.cons_append, mat_seq, mat_ch_cons,
        if_neg (toLower_ne_lit (by decide)
          (digit_toLower_ne _ '.' (hds _ (List.getElem_mem hlt)) (by decide)))]
    · have hn' : n = ds.length := by omega
      subst hn'
      rw [List.drop_length, List.nil_append]
      cases fs with
      | nil => rfl
      | cons f fs' =>
        rw [show fracPart (f :: fs') = '.' :: f :: fs' from rfl, mat_seq, mat_ch_cons,
          if_pos rfl]
        show mat (.plus Char.isDigit) (some '.') (f :: fs') cap _ = none
        apply mat_plus_none
        intro i hi
        have hrl : runLen Char.isDigit (f :: fs') = (f :: fs').length := by
          have := runLen_all_append Char.isDigit (f :: fs') [] hfs trivial
          simpa using this
        rw [hrl, mem_cntDownPos] at hi
        have hadv := advance_append_le (f :: fs') [] (some '.') i hi.2
        simp only [List.append_nil] at hadv
        rw [hadv]
        refine pct_fail_head _ _ _ _ ?_
        by_cases hlt2 : i < (f :: fs').length
        · rw [List.drop_eq_getElem_cons hlt2]
          exact ⟨digit_not_spc _ (hfs _ (List.getElem_mem hlt2)),
            digit_toLower_ne _ '%' (hfs _ (List.getElem_mem hlt2)) (by decide)⟩
        · have : i = (f :: fs').length := by omega
          subst this
          rw [List.drop_length]
          trivial
  · refine pct_fail_head _ _ _ _ ?_
    by_cases hlt : n < ds.length
    · rw [List.drop_eq_getElem_cons hlt, List.cons_append]
      exact ⟨digit_not_spc _ (hds _ (List.getElem_mem hlt)),
        digit_toLower_ne _ '%' (hds _ (List.getElem_mem hlt)) (by decide)⟩
    · have hn' : n = ds.length := by omega
      subst hn'
      rw [List.drop_length, List.nil_append]
      cases fs with
      | nil => trivial
      | cons f fs' => exact ⟨by decide, by decide⟩

theorem sp_then_num_fail (R : RE) (w : List Char) (prev : Option Char)
    (cap : Option (List Char)) (k : K)
    (hw : match w with | [] => True | c :: _ => Char.isDigit c = false ∧ isSpc c = false) :
    mat (.seq sp (.seq num R)) prev (' ' :: w) cap k = none := by
  rw [mat_seq]
  apply mat_starG_none
  intro n hn
  have h1 : runLen isSpc (' ' :: w) = 1 := by
    have := runLen_all_append isSpc [' '] w (by decide)
      (by cases w with | nil => trivial | cons c cs => exact hw.2)
    simpa using this
  rw [h1, mem_cntDown] at hn
  rcases Nat.le_one_iff_eq_zero_or_eq_one.mp hn with rfl | rfl
  · rw [advance_zero]
    exact mat_num_head_fail R (' ' :: w) prev cap k (by show Char.isDigit ' ' = false; decide)
  · rw [advance_one_cons]
    exact mat_num_head_fail R w (some ' ') cap k
      (by cases w with | nil => trivial | cons c cs => exact hw.1)

theorem sp_then_slit_fail (c0 : Char) (lr : List Char) (R : RE) (w : List Char)
    (prev : Option Char) (cap : Option (List Char)) (k : K)
    (hsp : (' ' : Char).toLower ≠ c0.toLower)
    (hw : match w with | [] => True | x :: _ => isSpc x = false ∧ x.toLower ≠ c0.toLower) :
    mat (.seq sp (.seq (slit (c0 :: lr)) R)) prev (' ' :: w) cap k = none := by
  rw [mat_seq]
  apply mat_starG_none
  intro n hn
  have h1 : runLen isSpc (' ' :: w) = 1 := by
    have := runLen_all_append isSpc [' '] w (by decide)
      (by cases w with | nil => trivial | cons c cs => exact hw.1)
    simpa using this
  rw [h1, mem_cntDown] at hn
  rcases Nat.le_one_iff_eq_zero_or_eq_one.mp hn with rfl | rfl
  · rw [advance_zero]
    show mat (.seq (.seq (.ch c0) (slit lr)) R) prev (' ' :: w) cap k = none
    rw [mat_seq, mat_seq, mat_ch_cons, if_neg hsp]
  · rw [advance_one_cons]
    show mat (.seq (.seq (.ch c0) (slit lr)) R) (some ' ') w cap k = none
    cases w with
    | nil => rfl
    | cons x xs => rw [mat_seq, mat_seq, mat_ch_cons, if_neg hw.2]

theorem matchAt_slit_head_fail (c0 : Char) (lr : List Char) (R : RE) (x : Char)
    (xs : List Char) (p' : Option Char) (h : x.toLower ≠ c0.toLower) :
    matchAt (.seq (slit (c0 :: lr)) R) p' (x :: xs) = none := by
  show mat (.seq (.seq (.ch c0) (slit lr)) R) p' (x :: xs) none _ = none
  rw [mat_seq, mat_seq, mat_ch_cons, if_neg h]

theorem matchAt_slit_nil (c0 : Char) (lr : List Char) (R : RE) (p' : Option Char) :
    matchAt (.seq (slit (c0 :: lr)) R) p' [] = none := rfl

theorem matchAt_ch_head_fail (c0 : Char) (R : RE) (x : Char) (xs : List Char)
    (p' : Option Char) (h : x.toLower ≠ c0.toLower) :
    matchAt (.seq (.ch c0) R) p' (x :: xs) = none := by
  show mat (.seq (.ch c0) R) p' (x :: xs) none _ = none
  rw [mat_seq, mat_ch_cons, if_neg h]

theorem matchAt_ch_nil (c0 : Char) (R : RE) (p' : Option Char) :
    matchAt (.seq (.ch c0) R) p' [] = none := rfl

theorem matchAt_slit2_fail (c0 c1 : Char) (lr : List Char) (R : RE) (x0 x1 : Char)
    (xs : List Char) (p' : Option Char) (h0 : x0.toLower = c0.toLower)
    (h1 : x1.toLower ≠ c1.toLower) :
    matchAt (.seq (slit (c0 :: c1 :: lr)) R) p' (x0 :: x1 :: xs) = none := by
  show mat (.seq (.seq (.ch c0) (.seq (.ch c1) (slit lr))) R) p' (x0 :: x1 :: xs)
    none _ = none
  rw [mat_seq, mat_seq, mat_ch_cons, if_pos h0]
  show mat (.seq (.ch c1) (slit lr)) (some x0) (x1 :: xs) none _ = none
  rw [mat_seq, mat_ch_cons, if_neg h1]

theorem matchAt_slit2_nil (c0 c1 : Char) (lr : List Char) (R : RE) (x0 : Char)
    (p' : Option Char) (h0 : x0.toLower = c0.toLower) :
    matchAt (.seq (slit (c0 :: c1 :: lr)) R) p' [x0] = none := by
  show mat (.seq (.seq (.ch c0) (.seq (.ch c1) (slit lr))) R) p' [x0] none _ = none
  rw [mat_seq, mat_seq, mat_ch_cons, if_pos h0]
  rfl

theorem matchAt_slit3_fail (c0 c1 c2 : Char) (lr : List Char) (R : RE)
    (x0 x1 x2 : Char) (xs : List Char) (p' : Option Char)
    (h0 : x0.toLower = c0.toLower) (h1 : x1.toLower = c1.toLower)
    (h2 : x2.toLower ≠ c2.toLower) :
    matchAt (.seq (slit (c0 :: c1 :: c2 :: lr)) R) p' (x0 :: x1 :: x2 :: xs) = none := by
  show mat (.seq (.seq (.ch c0) (.seq (.ch c1) (.seq (.ch c2) (slit lr)))) R) p'
    (x0 :: x1 :: x2 :: xs) none _ = none
  rw [mat_seq, mat_seq, mat_ch_cons, if_pos h0]
  show mat (.seq (.ch c1) (.seq (.ch c2) (slit lr))) (some x0) (x1 :: x2 :: xs)
    none _ = none
  rw [mat_seq, mat_ch_cons, if_pos h1]
  show mat (.seq (.ch c2) (slit lr)) (some x1) (x2 :: xs) none _ = none
  rw [mat_seq, mat_ch_cons, if_neg h2]

theorem matchAt_slit3_nil2 (c0 c1 c2 : Char) (lr : List Char) (R : RE)
    (x0 x1 : Char) (p' : Option Char)
    (h0 : x0.toLower = c0.toLower) (h1 : x1.toLower = c1.toLower) :
    matchAt (.seq (slit (c0 :: c1 :: c2 :: lr)) R) p' [x0, x1] = none := by
  show mat (.seq (.seq (.ch c0) (.seq (.ch c1) (.seq (.ch c2) (slit lr)))) R) p'
    [x0, x1] none _ = none
  rw [mat_seq, mat_seq, mat_ch_cons, if_pos h0]
  show mat (.seq (.ch c1) (.seq (.ch c2) (slit lr))) (some x0) [x1] none _ = none
  rw [mat_seq, mat_ch_cons, if_pos h1]
  rfl

theorem searchAux_step (r : RE) (x : Char) (xs : List Char) (prev : Option Char)
    (h : matchAt r prev (x :: xs) = none) :
    searchAux r prev (x :: xs) = searchAux r (some x) xs := by
  rw [searchAux.eq_def, h, Option.none_orElse]

theorem searchAux_nil_none (r : RE) (prev : Option Char)
    (h : matchAt r prev [] = none) : searchAux r prev [] = none := by
  rw [searchAux.eq_def, h]
  rfl

theorem searchAux_skip (r : RE) (u t : List Char) (prev : Option Char)
    (hfail : ∀ x ∈ u, ∀ (xs : List Char) (p' : Option Char),
      matchAt r p' (x :: xs) = none) :
    searchAux r prev (u ++ t) = searchAux r (endPrev u prev) t := by
  induction u generalizing prev with
  | nil => rfl
  | cons c cs ih =>
    rw [show (c :: cs) ++ t = c :: (cs ++ t) from rfl]
    rw [searchAux_step r c (cs ++ t) prev (hfail c (List.mem_cons_self c cs) _ _)]
    exact ih (some c) (fun x hx xs p' => hfail x (List.mem_cons_of_mem _ hx) xs p')

theorem numStr_ne_nil (ds fs : List Char) (hne : ds ≠ []) : numStr ds fs ≠ [] := by
  cases ds with
  | nil => exact absurd rfl hne
  | cons d ds' => simp [numStr]

theorem numStr_headNot (f : Char → Bool) (ds fs : List Char) (hne : ds ≠ [])
    (hd : ∀ c, c.isDigit = true → f c = false) (hds : ∀ c ∈ ds, c.isDigit = true) :
    headNot f (numStr ds fs) := by
  cases ds with
  | nil => exact absurd rfl hne
  | cons d ds' => exact hd d (hds d (List.mem_cons_self d ds'))

theorem headNot_append (f : Char → Bool) (u t : List Char) (hu : headNot f u)
    (hne : u ≠ []) : headNot f (u ++ t) := by
  cases u with
  | nil => exact absurd rfl hne
  | cons c cs => exact hu

theorem toLower_ne_append {e : Char} {u v : List Char}
    (hu : ∀ x ∈ u, x.toLower ≠ e) (hv : ∀ x ∈ v, x.toLower ≠ e) :
    ∀ x ∈ u ++ v, x.toLower ≠ e := by
  intro x hx
  rcases List.mem_append.mp hx with h | h
  · exact hu x h
  · exact hv x h

theorem toLower_ne_cons {e c : Char} {v : List Char} (hc : c.toLower ≠ e)
    (hv : ∀ x ∈ v, x.toLower ≠ e) : ∀ x ∈ c :: v, x.toLower ≠ e := by
  intro x hx
  rcases List.mem_cons.mp hx with rfl | h
  · exact hc
  · exact hv x h

theorem numStr_toLower_ne (ds fs : List Char) (e : Char)
    (hds : ∀ c ∈ ds, c.isDigit = true) (hfs : ∀ c ∈ fs, c.isDigit = true)
    (he : e.isDigit = false) (hdot : ('.' : Char).toLower ≠ e) :
    ∀ x ∈ numStr ds fs, x.toLower ≠ e := by
  intro x hx
  rcases mem_numStr ds fs x hx with h | h | h
  · exact digit_toLower_ne x e (hds x h) he
  · rw [h]
    exact hdot
  · exact digit_toLower_ne x e (hfs x h) he

/-- Greedy success of the capture group `(\d+(?:\.\d+)?)` on a decimal numeral
followed by a non-digit continuation: the group captures exactly the numeral
and the rest of the pattern continues on `t`. -/
theorem mat_num_succeed (R : RE) (ds fs t : List Char) (prev : Option Char)
    (cap : Option (List Char)) (k : K) (m : MRes)
    (hds : ∀ c ∈ ds, c.isDigit = true) (hne : ds ≠ [])
    (hfs : ∀ c ∈ fs, c.isDigit = true)
    (ht : headNot Char.isDigit t)
    (htd : match t with | [] => True | c :: _ => c.toLower ≠ '.')
    (hk : mat R (endPrev (numStr ds fs) prev) t (some (numStr ds fs)) k = some m) :
    mat (.seq num R) prev (numStr ds fs ++ t) cap k = some m := by
  obtain ⟨d, ds', rfl⟩ : ∃ d ds', ds = d :: ds' := by
    cases ds with
    | nil => exact absurd rfl hne
    | cons a b => exact ⟨a, b, rfl⟩
  simp only [numStr, List.append_assoc]
  rw [mat_seq, show num = .grp (.seq (.plus Char.isDigit)
        (.quest (.seq (.ch '.') (.plus Char.isDigit)))) from rfl, mat_grp, mat_seq]
  refine mat_plus_succeed Char.isDigit d ds' _ _ _ _ _ hds ?_ ?_
  · cases fs with
    | nil => exact ht
    | cons f fs' =>
      show Char.isDigit '.' = false
      decide
  · cases fs with
    | nil =>
      refine Eq.trans (mat_quest_second _ _ _ _ _ ?_) ?_
      · rw [mat_seq]
        cases t with
        | nil => exact mat_ch_nil '.' _ _ _
        | cons c t' =>
          have htd' : c.toLower ≠ '.' := htd
          rw [show fracPart ([] : List Char) ++ c :: t' = c :: t' from rfl, mat_ch_cons,
            if_neg (toLower_ne_lit (by decide) htd')]
      · show mat R (endPrev (d :: ds') prev) t
            (some (((d :: ds') ++ (fracPart [] ++ t)).take
              (((d :: ds') ++ (fracPart [] ++ t)).length - t.length))) k = some m
        rw [take_append2_len_sub]
        have he : endPrev (numStr (d :: ds') []) prev = endPrev (d :: ds') prev :=
          endPrev_append (d :: ds') (fracPart []) prev
        rw [he] at hk
        exact hk
    | cons f fs' =>
      refine mat_quest_first _ _ _ _ _ _ ?_
      rw [mat_seq]
      show mat (.ch '.') (endPrev (d :: ds') prev) ('.' :: ((f :: fs') ++ t)) _ _ = some m
      rw [mat_ch_cons, if_pos rfl]
      show mat (.plus Char.isDigit) (some '.') ((f :: fs') ++ t) _ _ = some m
      refine mat_plus_succeed Char.isDigit f fs' _ _ _ _ _ hfs ht ?_
      show mat R (endPrev (f :: fs') (some '.')) t
          (some (((d :: ds') ++ (fracPart (f :: fs') ++ t)).take
            (((d :: ds') ++ (fracPart (f :: fs') ++ t)).length - t.length))) k = some m
      rw [take_append2_len_sub]
      have he : endPrev (numStr (d :: ds') (f :: fs')) prev = endPrev (f :: fs') (some '.') :=
        endPrev_append (d :: ds') (fracPart (f :: fs')) prev
      rw [he] at hk
      exact hk

/-- The `\s*(\d+(?:\.\d+)?)\s*%` tail of a marker pattern cannot complete when
the numeral ends the input: there is no `%` to match. -/
theorem sp_num_pct_end_fail (ds fs : List Char) (prev : Option Char)
    (cap : Option (List Char)) (k : K)
    (hds : ∀ c ∈ ds, c.isDigit = true) (hne : ds ≠ [])
    (hfs : ∀ c ∈ fs, c.isDigit = true) :
    mat (.seq sp (.seq num (.seq sp (.seq (.ch '%') .eps)))) prev
      (' ' :: numStr ds fs) cap k = none := by
  rw [mat_seq]
  apply mat_starG_none
  intro n hn
  have h1 : runLen isSpc (' ' :: numStr ds fs) = 1 := by
    have h2 := runLen_all_append isSpc [' '] (numStr ds fs) (by decide)
      (numStr_headNot isSpc ds fs hne (fun c hc => digit_not_spc c hc) hds)
    simpa using h2
  rw [h1, mem_cntDown] at hn
  rcases Nat.le_one_iff_eq_zero_or_eq_one.mp hn with rfl | rfl
  · rw [advance_zero]
    refine mat_num_head_fail _ _ _ _ _ ?_
    show Char.isDigit ' ' = false
    decide
  · rw [advance_one_cons]
    exact num_pct_end_fail ds fs (some ' ') cap k hds hfs

theorem matchAt_label_sp_num_fail (L w : List Char) (R : RE) (p : Option Char)
    (hw : match w with | [] => True | c :: _ => Char.isDigit c = false ∧ isSpc c = false) :
    matchAt (.seq (slit L) (.seq sp (.seq num R))) p (L ++ ' ' :: w) = none := by
  show mat (.seq (slit L) (.seq sp (.seq num R))) p (L ++ ' ' :: w) none _ = none
  rw [mat_seq, mat_slit_append]
  exact sp_then_num_fail R w _ _ _ hw

theorem matchAt_label_sp_num_pct_end_fail (L ds fs : List Char) (p : Option Char)
    (hds : ∀ c ∈ ds, c.isDigit = true) (hne : ds ≠ [])
    (hfs : ∀ c ∈ fs, c.isDigit = true) :
    matchAt (.seq (slit L) (.seq sp (.seq num (.seq sp (.seq (.ch '%') .eps))))) p
      (L ++ ' ' :: numStr ds fs) = none := by
  show mat (.seq (slit L) (.seq sp (.seq num (.seq sp (.seq (.ch '%') .eps))))) p
    (L ++ ' ' :: numStr ds fs) none _ = none
  rw [mat_seq, mat_slit_append]
  exact sp_num_pct_end_fail ds fs _ _ _ hds hne hfs

theorem matchAt_label_sp_star_fail (L : List Char) (R : RE) (w : List Char)
    (p : Option Char)
    (hw : match w with | [] => True | x :: _ => isSpc x = false ∧ x.toLower ≠ ('*' : Char).toLower) :
    matchAt (.seq (slit L) (.seq sp (.seq (slit ('*' :: '*' :: [])) R))) p
      (L ++ ' ' :: w) = none := by
  show mat (.seq (slit L) (.seq sp (.seq (slit ('*' :: '*' :: [])) R))) p
    (L ++ ' ' :: w) none _ = none
  rw [mat_seq, mat_slit_append]
  exact sp_then_slit_fail '*' ['*'] R w _ _ _ (by decide) hw

/-- `re.search` fails for a pattern whose literal label occurs only at the very
start of the text, where the rest of the pattern cannot complete. -/
theorem reSearch_label_once_none (c0 : Char) (lr : List Char) (R : RE) (t : List Char)
    (h0 : matchAt (.seq (slit (c0 :: lr)) R) none (c0 :: (lr ++ t)) = none)
    (ht : ∀ x ∈ lr ++ t, x.toLower ≠ c0.toLower) :
    reSearch (.seq (slit (c0 :: lr)) R) ((c0 :: lr) ++ t) = none := by
  unfold reSearch
  rw [show (c0 :: lr) ++ t = c0 :: (lr ++ t) from rfl]
  rw [searchAux_step _ _ _ _ h0]
  rw [searchAux_label_none c0 lr R (lr ++ t) (some c0) ht]
  rfl

/-- The plain `LABEL:\s*(num)\s*%` pattern matches inside a bold-wrapped
marker at offset 2 (after the two leading asterisks). -/
theorem reSearch_marker_bold (c0 : Char) (lr ds fs : List Char)
    (hds : ∀ c ∈ ds, c.isDigit = true) (hne : ds ≠ [])
    (hfs : ∀ c ∈ fs, c.isDigit = true)
    (hstar : ('*' : Char).toLower ≠ c0.toLower) :
    reSearch (seqs [slit (c0 :: lr), sp, num, sp, .ch '%'])
        ('*' :: '*' :: marker_text (c0 :: lr) (numStr ds fs) ('*' :: '*' :: []))
      = some (numStr ds fs) := by
  unfold reSearch
  have h0 : matchAt (seqs [slit (c0 :: lr), sp, num, sp, .ch '%']) none
      ('*' :: ('*' :: marker_text (c0 :: lr) (numStr ds fs) ('*' :: '*' :: []))) = none :=
    matchAt_slit_head_fail c0 lr (seqs [sp, num, sp, .ch '%']) '*' _ none hstar
  have h1 : matchAt (seqs [slit (c0 :: lr), sp, num, sp, .ch '%']) (some '*')
      ('*' :: marker_text (c0 :: lr) (numStr ds fs) ('*' :: '*' :: [])) = none :=
    matchAt_slit_head_fail c0 lr (seqs [sp, num, sp, .ch '%']) '*' _ (some '*') hstar
  rw [searchAux_step _ _ _ _ h0, searchAux_step _ _ _ _ h1]
  rw [searchAux_of_matchAt
    (matchAt_marker (c0 :: lr) ds fs ('*' :: '*' :: []) (some '*') hds hne hfs)]
  rfl

/-- The starred-number pattern `LABEL:\s*\*\*(num)\s*%\*\*` matches the
`LABEL: **N%**` format at position 0. -/
theorem matchAt_marker_starred (L ds fs : List Char) (p : Option Char)
    (hds : ∀ c ∈ ds, c.isDigit = true) (hne : ds ≠ [])
    (hfs : ∀ c ∈ fs, c.isDigit = true) :
    matchAt (seqs [slit L, sp, slit ('*' :: '*' :: []), num, sp,
        slit ('%' :: '*' :: '*' :: [])]) p
        (L ++ ' ' :: ('*' :: '*' :: (numStr ds fs ++ ('%' :: '*' :: '*' :: []))))
      = some ⟨some (numStr ds fs), some '*', []⟩ := by
  show mat (.seq (slit L) (seqs [sp, slit ('*' :: '*' :: []), num, sp,
      slit ('%' :: '*' :: '*' :: [])])) p
      (L ++ ' ' :: ('*' :: '*' :: (numStr ds fs ++ ('%' :: '*' :: '*' :: [])))) none
      (fun p s' c => some ⟨c, p, s'⟩) = _
  rw [mat_seq, mat_slit_append]
  show mat (.seq sp (seqs [slit ('*' :: '*' :: []), num, sp,
      slit ('%' :: '*' :: '*' :: [])])) (endPrev L p)
      ([' '] ++ ('*' :: '*' :: (numStr ds fs ++ ('%' :: '*' :: '*' :: [])))) none _ = _
  rw [mat_seq]
  refine mat_starG_succeed isSpc [' '] _ _ _ _ _ (by decide) ?_ ?_
  · show isSpc '*' = false
    decide
  · show mat (.seq (slit ('*' :: '*' :: [])) (seqs [num, sp,
        slit ('%' :: '*' :: '*' :: [])])) (some ' ')
        (('*' :: '*' :: []) ++ (numStr ds fs ++ ('%' :: '*' :: '*' :: []))) none _ = _
    rw [mat_seq, mat_slit_append]
    show mat (.seq num (seqs [sp, slit ('%' :: '*' :: '*' :: [])])) (some '*')
        (numStr ds fs ++ ('%' :: '*' :: '*' :: [])) none _ = _
    refine mat_num_succeed _ ds fs _ _ _ _ _ hds hne hfs ?_ ?_ ?_
    · show Char.isDigit '%' = false
      decide
    · show ('%' : Char).toLower ≠ '.'
      decide
    · show mat (.seq sp (.seq (slit ('%' :: '*' :: '*' :: [])) .eps))
          (endPrev (numStr ds fs) (some '*')) ('%' :: '*' :: '*' :: [])
          (some (numStr ds fs)) _ = _
      rw [mat_seq]
      refine mat_starG_skip isSpc _ _ _ _ _ ?_ ?_
      · show isSpc '%' = false
        decide
      · show mat (.seq (slit ('%' :: '*' :: '*' :: [])) .eps)
            (endPrev (numStr ds fs) (some '*')) (('%' :: '*' :: '*' :: []) ++ [])
            (some (numStr ds fs)) _ = _
        rw [mat_seq, mat_slit_append]
        rfl

/-- The bare pattern `LABEL:\s*(num)` matches the percent-less `LABEL: N`
format at position 0, the group capturing the whole numeral. -/
theorem matchAt_marker_bare (L ds fs : List Char) (p : Option Char)
    (hds : ∀ c ∈ ds, c.isDigit = true) (hne : ds ≠ [])
    (hfs : ∀ c ∈ fs, c.isDigit = true) :
    matchAt (seqs [slit L, sp, num]) p (L ++ ' ' :: (numStr ds fs ++ []))
      = some ⟨some (numStr ds fs), endPrev (numStr ds fs) (some ' '), []⟩ := by
  show mat (.seq (slit L) (seqs [sp, num])) p (L ++ ' ' :: (numStr ds fs ++ [])) none
      (fun p s' c => some ⟨c, p, s'⟩) = _
  rw [mat_seq, mat_slit_append]
  show mat (.seq sp (seqs [num])) (endPrev L p) ([' '] ++ (numStr ds fs ++ [])) none _ = _
  rw [mat_seq]
  refine mat_starG_succeed isSpc [' '] _ _ _ _ _ (by decide) ?_ ?_
  · exact headNot_append isSpc (numStr ds fs) []
      (numStr_headNot isSpc ds fs hne (fun c hc => digit_not_spc c hc) hds)
      (numStr_ne_nil ds fs hne)
  · show mat (.seq num .eps) (some ' ') (numStr ds fs ++ []) none _ = _
    refine mat_num_succeed .eps ds fs [] (some ' ') _ _ _ hds hne hfs trivial trivial ?_
    rfl

/-- The formula-result pattern `=\s*(num)\s*%?$` matches `= N` at the end of
the input. -/
theorem matchAt_calc (ds fs : List Char) (p : Option Char)
    (hds : ∀ c ∈ ds, c.isDigit = true) (hne : ds ≠ [])
    (hfs : ∀ c ∈ fs, c.isDigit = true) :
    matchAt (seqs [.ch '=', sp, num, sp, .quest (.ch '%'), .eol]) p
        ('=' :: ' ' :: (numStr ds fs ++ []))
      = some ⟨some (numStr ds fs), endPrev (numStr ds fs) (some ' '), []⟩ := by
  show mat (.seq (.ch '=') (seqs [sp, num, sp, .quest (.ch '%'), .eol])) p
      ('=' :: ' ' :: (numStr ds fs ++ [])) none (fun p s' c => some ⟨c, p, s'⟩) = _
  rw [mat_seq, mat_ch_cons, if_pos rfl]
  show mat (.seq sp (seqs [num, sp, .quest (.ch '%'), .eol])) (some '=')
      ([' '] ++ (numStr ds fs ++ [])) none _ = _
  rw [mat_seq]
  refine mat_starG_succeed isSpc [' '] _ _ _ _ _ (by decide) ?_ ?_
  · exact headNot_append isSpc (numStr ds fs) []
      (numStr_headNot isSpc ds fs hne (fun c hc => digit_not_spc c hc) hds)
      (numStr_ne_nil ds fs hne)
  · show mat (.seq num (seqs [sp, .quest (.ch '%'), .eol])) (some ' ')
        (numStr ds fs ++ []) none _ = _
    refine mat_num_succeed _ ds fs [] (some ' ') _ _ _ hds hne hfs trivial trivial ?_
    show mat (.seq sp (.seq (.quest (.ch '%')) (.seq .eol .eps)))
        (endPrev (numStr ds fs) (some ' ')) [] (some (numStr ds fs)) _ = _
    rw [mat_seq]
    refine mat_starG_skip isSpc _ _ _ _ _ trivial ?_
    rw [mat_seq, mat_quest, mat_ch_nil, Option.none_orElse]
    rfl

theorem reSearch_marker_bare (L ds fs : List Char)
    (hds : ∀ c ∈ ds, c.isDigit = true) (hne : ds ≠ [])
    (hfs : ∀ c ∈ fs, c.isDigit = true) :
    reSearch (seqs [slit L, sp, num]) (L ++ ' ' :: numStr ds fs)
      = some (numStr ds fs) := by
  rw [show L ++ ' ' :: numStr ds fs = L ++ ' ' :: (numStr ds fs ++ []) from by simp]
  unfold reSearch
  have hm : matchAt (seqs [slit L, sp, num]) none (L ++ ' ' :: (numStr ds fs ++ []))
      = some ⟨some (numStr ds fs), endPrev (numStr ds fs) (some ' '), []⟩ :=
    matchAt_marker_bare L ds fs none hds hne hfs
  rw [searchAux_of_matchAt hm]
  rfl

theorem matchAt_slit_nil_any (cs : List Char) (R : RE) (p : Option Char)
    (hne : cs ≠ []) : matchAt (.seq (slit cs) R) p [] = none := by
  cases cs with
  | nil => exact absurd rfl hne
  | cons c cs' => exact matchAt_slit_nil c cs' R p

/-- The trailing `%**` of a starred marker admits no start of a `**LABEL`
pattern. -/
theorem searchAux_pct_stars_none (c2 : Char) (lr2 : List Char) (R : RE)
    (p : Option Char) :
    searchAux (.seq (slit ('*' :: '*' :: c2 :: lr2)) R) p
      ('%' :: '*' :: '*' :: []) = none := by
  rw [searchAux_step _ _ _ _
    (matchAt_slit_head_fail '*' ('*' :: c2 :: lr2) R '%' _ p (by decide))]
  rw [searchAux_step _ _ _ _
    (matchAt_slit3_nil2 '*' '*' c2 lr2 R '*' '*' (some '%') rfl rfl)]
  rw [searchAux_step _ _ _ _
    (matchAt_slit2_nil '*' '*' (c2 :: lr2) R '*' (some '*') rfl)]
  exact searchAux_nil_none _ _ (matchAt_slit_nil '*' _ R _)

/-- A `**LABEL:...` pattern finds no match in a `LABEL: **N%**` text: the
only asterisk runs are followed by a digit or end the text. -/
theorem reSearch_starstar_none (c2 : Char) (lr2 : List Char) (R : RE)
    (L ds fs : List Char)
    (hds : ∀ c ∈ ds, c.isDigit = true) (hne : ds ≠ [])
    (hfs : ∀ c ∈ fs, c.isDigit = true)
    (hL : ∀ x ∈ L, x.toLower ≠ '*')
    (hc2 : c2.toLower.isDigit = false) :
    reSearch (.seq (slit ('*' :: '*' :: c2 :: lr2)) R)
      (L ++ ' ' :: ('*' :: '*' :: (numStr ds fs ++ ('%' :: '*' :: '*' :: [])))) = none := by
  obtain ⟨d, ds', rfl⟩ : ∃ d ds', ds = d :: ds' := by
    cases ds with
    | nil => exact absurd rfl hne
    | cons a b => exact ⟨a, b, rfl⟩
  unfold reSearch
  rw [show L ++ ' ' :: ('*' :: '*' :: (numStr (d :: ds') fs ++ ('%' :: '*' :: '*' :: [])))
        = (L ++ [' ']) ++ ('*' :: '*' :: (numStr (d :: ds') fs ++ ('%' :: '*' :: '*' :: [])))
      from by simp]
  have hf : ∀ x ∈ L ++ [' '], ∀ (xs : List Char) (p' : Option Char),
      matchAt (.seq (slit ('*' :: '*' :: c2 :: lr2)) R) p' (x :: xs) = none := by
    intro x hx xs p'
    refine matchAt_slit_head_fail '*' ('*' :: c2 :: lr2) R x xs p' ?_
    rcases List.mem_append.mp hx with h | h
    · exact toLower_ne_lit (by decide) (hL x h)
    · rcases List.mem_cons.mp h with rfl | h2
      · decide
      · simp at h2
  rw [searchAux_skip _ _ _ _ hf]
  have hst1 : matchAt (.seq (slit ('*' :: '*' :: c2 :: lr2)) R)
      (endPrev (L ++ [' ']) none)
      ('*' :: '*' :: (numStr (d :: ds') fs ++ ('%' :: '*' :: '*' :: []))) = none :=
    matchAt_slit3_fail '*' '*' c2 lr2 R '*' '*' d _ _ rfl rfl
      (digit_toLower_ne d c2.toLower (hds d (List.mem_cons_self d ds')) hc2)
  rw [searchAux_step _ _ _ _ hst1]
  have hst2 : matchAt (.seq (slit ('*' :: '*' :: c2 :: lr2)) R) (some '*')
      ('*' :: (numStr (d :: ds') fs ++ ('%' :: '*' :: '*' :: []))) = none :=
    matchAt_slit2_fail '*' '*' (c2 :: lr2) R '*' d _ _ rfl
      (toLower_ne_lit (by decide)
        (digit_toLower_ne d '*' (hds d (List.mem_cons_self d ds')) (by decide)))
  rw [searchAux_step _ _ _ _ hst2]
  rw [show numStr (d :: ds') fs ++ ('%' :: '*' :: '*' :: [])
        = numStr (d :: ds') fs ++ ('%' :: '*' :: '*' :: []) from rfl]
  have hfnum : ∀ x ∈ numStr (d :: ds') fs, ∀ (xs : List Char) (p' : Option Char),
      matchAt (.seq (slit ('*' :: '*' :: c2 :: lr2)) R) p' (x :: xs) = none := by
    intro x hx xs p'
    exact matchAt_slit_head_fail '*' ('*' :: c2 :: lr2) R x xs p'
      (toLower_ne_lit (by decide)
        (numStr_toLower_ne (d :: ds') fs '*' hds hfs (by decide) (by decide) x hx))
  rw [searchAux_skip _ _ _ _ hfnum]
  rw [searchAux_pct_stars_none c2 lr2 R _]
  rfl

/-- A `**LABEL:...` pattern finds no match in a bold-wrapped `**OTHER: N%**`
text whose label differs at the first letter. -/
theorem reSearch_starstar_pre_none (c2 : Char) (lr2 : List Char) (R : RE)
    (c3 : Char) (L' ds fs : List Char)
    (hds : ∀ c ∈ ds, c.isDigit = true) (hne : ds ≠ [])
    (hfs : ∀ c ∈ fs, c.isDigit = true)
    (hc3 : c3.toLower ≠ c2.toLower)
    (hL : ∀ x ∈ c3 :: L', x.toLower ≠ '*') :
    reSearch (.seq (slit ('*' :: '*' :: c2 :: lr2)) R)
      ('*' :: '*' :: ((c3 :: L') ++ ' ' :: (numStr ds fs ++ ('%' :: '*' :: '*' :: []))))
      = none := by
  unfold reSearch
  have hst1 : matchAt (.seq (slit ('*' :: '*' :: c2 :: lr2)) R) none
      ('*' :: '*' :: ((c3 :: L') ++ ' ' :: (numStr ds fs ++ ('%' :: '*' :: '*' :: []))))
      = none :=
    matchAt_slit3_fail '*' '*' c2 lr2 R '*' '*' c3 _ _ rfl rfl hc3
  rw [searchAux_step _ _ _ _ hst1]
  have hst2 : matchAt (.seq (slit ('*' :: '*' :: c2 :: lr2)) R) (some '*')
      ('*' :: ((c3 :: L') ++ ' ' :: (numStr ds fs ++ ('%' :: '*' :: '*' :: [])))) = none :=
    matchAt_slit2_fail '*' '*' (c2 :: lr2) R '*' c3 _ _ rfl
      (toLower_ne_lit (by decide) (hL c3 (List.mem_cons_self c3 L')))
  rw [searchAux_step _ _ _ _ hst2]
  rw [show (c3 :: L') ++ ' ' :: (numStr ds fs ++ ('%' :: '*' :: '*' :: []))
        = ((c3 :: L') ++ [' ']) ++ (numStr ds fs ++ ('%' :: '*' :: '*' :: []))
      from by simp]
  have hf : ∀ x ∈ (c3 :: L') ++ [' '], ∀ (xs : List Char) (p' : Option Char),
      matchAt (.seq (slit ('*' :: '*' :: c2 :: lr2)) R) p' (x :: xs) = none := by
    intro x hx xs p'
    refine matchAt_slit_head_fail '*' ('*' :: c2 :: lr2) R x xs p' ?_
    rcases List.mem_append.mp hx with h | h
    · exact toLower_ne_lit (by decide) (hL x h)
    · rcases List.mem_cons.mp h with rfl | h2
      · decide
      · simp at h2
  rw [searchAux_skip _ _ _ _ hf]
  have hfnum : ∀ x ∈ numStr ds fs, ∀ (xs : List Char) (p' : Option Char),
      matchAt (.seq (slit ('*' :: '*' :: c2 :: lr2)) R) p' (x :: xs) = none := by
    intro x hx xs p'
    exact matchAt_slit_head_fail '*' ('*' :: c2 :: lr2) R x xs p'
      (toLower_ne_lit (by decide)
        (numStr_toLower_ne ds fs '*' hds hfs (by decide) (by decide) x hx))
  rw [searchAux_skip _ _ _ _ hfnum]
  rw [searchAux_pct_stars_none c2 lr2 R _]
  rfl

theorem findAux_succ (r : RE) (prev : Option Char) (s : List Char) (fuel : ℕ) :
    findAux r prev s (fuel + 1)
      = match searchAux r prev s with
        | none => []
        | some m =>
          m.cap.getD [] ::
            (if m.rest.length < s.length then findAux r m.prev m.rest fuel
             else
               match m.rest with
               | [] => []
               | x :: xs => findAux r (some x) xs fuel) := by
  rw [findAux.eq_def]

theorem findAux_none (r : RE) (prev : Option Char) (s : List Char) (fuel : ℕ)
    (h : searchAux r prev s = none) : findAux r prev s fuel = [] := by
  cases fuel with
  | zero => rfl
  | succ n => rw [findAux_succ, h]

theorem reFindall_of_searchAux_none (r : RE) (s : List Char)
    (h : searchAux r none s = none) : reFindall r s = [] := by
  unfold reFindall
  exact findAux_none r none s _ h

/-- When the first (and only) match consumes the whole remaining input,
`re.findall` returns exactly that one capture. -/
theorem reFindall_single (r : RE) (c : Char) (cs : List Char) (m : MRes)
    (h : searchAux r none (c :: cs) = some m) (hr : m.rest = [])
    (hnil : ∀ p : Option Char, matchAt r p [] = none) :
    reFindall r (c :: cs) = [m.cap.getD []] := by
  unfold reFindall
  rw [findAux_succ, h]
  show m.cap.getD [] ::
      (if m.rest.length < (c :: cs).length then findAux r m.prev m.rest (c :: cs).length
       else
         match m.rest with
         | [] => []
         | x :: xs => findAux r (some x) xs (c :: cs).length)
    = [m.cap.getD []]
  rw [hr]
  rw [if_pos (by simp)]
  rw [findAux_none r m.prev [] (c :: cs).length
    (searchAux_nil_none r m.prev (hnil m.prev))]

theorem tryFindallChecked_cons_none (p : RE) (ps : List RE) (content : List Char)
    (h : reFindall p content = []) :
    tryFindallChecked (p :: ps) content = tryFindallChecked ps content := by
  unfold tryFindallChecked
  rw [List.findSome?_cons]
  simp only [h, List.getLast?_nil]

theorem tryFindallChecked_cons_some (p : RE) (ps : List RE) (content capd : List Char)
    (h : (reFindall p content).getLast? = some capd)
    (h0 : 0 ≤ parseDec capd) (h100 : parseDec capd ≤ 100) :
    tryFindallChecked (p :: ps) content = some (parseDec capd) := by
  unfold tryFindallChecked
  rw [List.findSome?_cons]
  simp only [h]
  rw [if_pos ⟨h0, h100⟩]

/-- A text with no `h` and no `*` (lower-cased) admits no match of any of the
four HAUPTPROGNOSE patterns. -/
theorem hauptPatterns_none_of_chars (content : List Char)
    (hh : ∀ x ∈ content, x.toLower ≠ 'h') (hs : ∀ x ∈ content, x.toLower ≠ '*') :
    tryPatterns hauptprognose_patterns content = none := by
  have hH : ∀ x ∈ content, x.toLower ≠ 'H'.toLower := fun x hx => by
    rw [show ('H' : Char).toLower = 'h' from by decide]
    exact hh x hx
  have hS : ∀ x ∈ content, x.toLower ≠ ('*' : Char).toLower := fun x hx => hs x hx
  have h1 : reSearch (seqs [slit "HAUPTPROGNOSE:".data, sp, num, sp, .ch '%'])
      content = none :=
    reSearch_label_none 'H' "AUPTPROGNOSE:".data (seqs [sp, num, sp, .ch '%']) content hH
  have h2 : reSearch (seqs [slit "**HAUPTPROGNOSE:".data, sp, num, sp, slit "%**".data])
      content = none :=
    reSearch_label_none '*' "*HAUPTPROGNOSE:".data
      (seqs [sp, num, sp, slit "%**".data]) content hS
  have h3 : reSearch (seqs [slit "HAUPTPROGNOSE:".data, sp, slit "**".data, num, sp,
      slit "%**".data]) content = none :=
    reSearch_label_none 'H' "AUPTPROGNOSE:".data
      (seqs [sp, slit "**".data, num, sp, slit "%**".data]) content hH
  have h4 : reSearch (seqs [slit "HAUPTPROGNOSE:".data, sp, num]) content = none :=
    reSearch_label_none 'H' "AUPTPROGNOSE:".data (seqs [sp, num]) content hH
  unfold hauptprognose_patterns
  rw [tryPatterns_cons_none _ _ _ h1, tryPatterns_cons_none _ _ _ h2,
      tryPatterns_cons_none _ _ _ h3, tryPatterns_cons_none _ _ _ h4]
  rfl

/-- A text with no `p` and no `*` (lower-cased) admits no match of any of the
four PROGNOSE patterns. -/
theorem prognosePatterns_none_of_chars (content : List Char)
    (hp : ∀ x ∈ content, x.toLower ≠ 'p') (hs : ∀ x ∈ content, x.toLower ≠ '*') :
    tryPatterns prognose_patterns content = none := by
  have hP : ∀ x ∈ content, x.toLower ≠ 'P'.toLower := fun x hx => by
    rw [show ('P' : Char).toLower = 'p' from by decide]
    exact hp x hx
  have hS : ∀ x ∈ content, x.toLower ≠ ('*' : Char).toLower := fun x hx => hs x hx
  have h1 : reSearch (seqs [slit "PROGNOSE:".data, sp, num, sp, .ch '%'])
      content = none :=
    reSearch_label_none 'P' "ROGNOSE:".data (seqs [sp, num, sp, .ch '%']) content hP
  have h2 : reSearch (seqs [slit "**PROGNOSE:".data, sp, num, sp, slit "%**".data])
      content = none :=
    reSearch_label_none '*' "*PROGNOSE:".data
      (seqs [sp, num, sp, slit "%**".data]) content hS
  have h3 : reSearch (seqs [slit "PROGNOSE:".data, sp, slit "**".data, num, sp,
      slit "%**".data]) content = none :=
    reSearch_label_none 'P' "ROGNOSE:".data
      (seqs [sp, slit "**".data, num, sp, slit "%**".data]) content hP
  have h4 : reSearch (seqs [slit "PROGNOSE:".data, sp, num]) content = none :=
    reSearch_label_none 'P' "ROGNOSE:".data (seqs [sp, num]) content hP
  unfold prognose_patterns
  rw [tryPatterns_cons_none _ _ _ h1, tryPatterns_cons_none _ _ _ h2,
      tryPatterns_cons_none _ _ _ h3, tryPatterns_cons_none _ _ _ h4]
  rfl

/-- The cascade on a bold-wrapped primary marker `**HAUPTPROGNOSE: N%**`: the
plain first pattern matches after the two leading asterisks and wins. -/
theorem extract_haupt_bold (ds fs : List Char)
    (hds : ∀ c ∈ ds, c.isDigit = true) (hne : ds ≠ [])
    (hfs : ∀ c ∈ fs, c.isDigit = true) (hv : decVal ds fs ≤ 100) :
    extract_probability
        ('*' :: '*' :: marker_text "HAUPTPROGNOSE:".data (numStr ds fs) ('*' :: '*' :: []))
      = some (decVal ds fs) := by
  have hparse := parseDec_numStr ds fs hds hfs
  have hs : reSearch (seqs [slit "HAUPTPROGNOSE:".data, sp, num, sp, .ch '%'])
      ('*' :: '*' :: marker_text "HAUPTPROGNOSE:".data (numStr ds fs) ('*' :: '*' :: []))
      = some (numStr ds fs) :=
    reSearch_marker_bold 'H' "AUPTPROGNOSE:".data ds fs hds hne hfs (by decide)
  have hfirst : tryPatterns hauptprognose_patterns
      ('*' :: '*' :: marker_text "HAUPTPROGNOSE:".data (numStr ds fs) ('*' :: '*' :: []))
      = some (decVal ds fs) := by
    unfold hauptprognose_patterns
    rw [tryPatterns_cons_some _ _ _ _ hs
      (by rw [hparse]; exact decVal_nonneg ds fs) (by rw [hparse]; exact hv), hparse]
  unfold extract_probability
  rw [if_neg (by simp), hfirst]
  rfl

/-- The cascade on a starred-number primary marker `HAUPTPROGNOSE: **N%**`:
patterns 1 and 2 fail everywhere and the starred pattern 3 wins. -/
theorem extract_haupt_starred (ds fs : List Char)
    (hds : ∀ c ∈ ds, c.isDigit = true) (hne : ds ≠ [])
    (hfs : ∀ c ∈ fs, c.isDigit = true) (hv : decVal ds fs ≤ 100) :
    extract_probability
        ("HAUPTPROGNOSE:".data ++ ' ' :: ('*' :: '*' :: (numStr ds fs ++ ('%' :: '*' :: '*' :: []))))
      = some (decVal ds fs) := by
  have hparse := parseDec_numStr ds fs hds hfs
  have hmemH : ∀ x ∈ "AUPTPROGNOSE:".data
      ++ (' ' :: ('*' :: '*' :: (numStr ds fs ++ ('%' :: '*' :: '*' :: [])))),
      x.toLower ≠ 'h' :=
    toLower_ne_append (by decide)
      (toLower_ne_cons (by decide)
        (toLower_ne_cons (by decide)
          (toLower_ne_cons (by decide)
            (toLower_ne_append (numStr_toLower_ne ds fs 'h' hds hfs (by decide) (by decide))
              (by decide)))))
  have h0 : matchAt (.seq (slit ('H' :: "AUPTPROGNOSE:".data))
      (seqs [sp, num, sp, .ch '%'])) none
      ('H' :: ("AUPTPROGNOSE:".data
        ++ (' ' :: ('*' :: '*' :: (numStr ds fs ++ ('%' :: '*' :: '*' :: [])))))) = none :=
    matchAt_label_sp_num_fail "HAUPTPROGNOSE:".data
      ('*' :: '*' :: (numStr ds fs ++ ('%' :: '*' :: '*' :: [])))
      (.seq sp (.seq (.ch '%') .eps)) none ⟨by decide, by decide⟩
  have h1 : reSearch (seqs [slit "HAUPTPROGNOSE:".data, sp, num, sp, .ch '%'])
      ("HAUPTPROGNOSE:".data ++ ' ' :: ('*' :: '*' :: (numStr ds fs ++ ('%' :: '*' :: '*' :: []))))
      = none :=
    reSearch_label_once_none 'H' "AUPTPROGNOSE:".data (seqs [sp, num, sp, .ch '%'])
      (' ' :: ('*' :: '*' :: (numStr ds fs ++ ('%' :: '*' :: '*' :: [])))) h0
      (fun x hx => by
        rw [show ('H' : Char).toLower = 'h' from by decide]
        exact hmemH x hx)
  have h2 : reSearch (seqs [slit "**HAUPTPROGNOSE:".data, sp, num, sp, slit "%**".data])
      ("HAUPTPROGNOSE:".data ++ ' ' :: ('*' :: '*' :: (numStr ds fs ++ ('%' :: '*' :: '*' :: []))))
      = none :=
    reSearch_starstar_none 'H' "AUPTPROGNOSE:".data (seqs [sp, num, sp, slit "%**".data])
      "HAUPTPROGNOSE:".data ds fs hds hne hfs (by decide) (by decide)
  have hm3 : matchAt (seqs [slit "HAUPTPROGNOSE:".data, sp, slit "**".data, num, sp,
      slit "%**".data]) none
      ("HAUPTPROGNOSE:".data ++ ' ' :: ('*' :: '*' :: (numStr ds fs ++ ('%' :: '*' :: '*' :: []))))
      = some ⟨some (numStr ds fs), some '*', []⟩ :=
    matchAt_marker_starred "HAUPTPROGNOSE:".data ds fs none hds hne hfs
  have h3 : reSearch (seqs [slit "HAUPTPROGNOSE:".data, sp, slit "**".data, num, sp,
      slit "%**".data])
      ("HAUPTPROGNOSE:".data ++ ' ' :: ('*' :: '*' :: (numStr ds fs ++ ('%' :: '*' :: '*' :: []))))
      = some (numStr ds fs) := by
    unfold reSearch
    rw [searchAux_of_matchAt hm3]
    rfl
  have hfirst : tryPatterns hauptprognose_patterns
      ("HAUPTPROGNOSE:".data ++ ' ' :: ('*' :: '*' :: (numStr ds fs ++ ('%' :: '*' :: '*' :: []))))
      = some (decVal ds fs) := by
    unfold hauptprognose_patterns
    rw [tryPatterns_cons_none _ _ _ h1, tryPatterns_cons_none _ _ _ h2,
        tryPatterns_cons_some _ _ _ _ h3
          (by rw [hparse]; exact decVal_nonneg ds fs) (by rw [hparse]; exact hv), hparse]
  unfold extract_probability
  rw [if_neg (by simp), hfirst]
  rfl

/-- The cascade on a percent-less primary marker `HAUPTPROGNOSE: N`: the three
percent-bearing patterns fail and the bare pattern 4 wins. -/
theorem extract_haupt_bare (ds fs : List Char)
    (hds : ∀ c ∈ ds, c.isDigit = true) (hne : ds ≠ [])
    (hfs : ∀ c ∈ fs, c.isDigit = true) (hv : decVal ds fs ≤ 100) :
    extract_probability ("HAUPTPROGNOSE:".data ++ ' ' :: numStr ds fs)
      = some (decVal ds fs) := by
  obtain ⟨d, ds', rfl⟩ : ∃ d ds', ds = d :: ds' := by
    cases ds with
    | nil => exact absurd rfl hne
    | cons a b => exact ⟨a, b, rfl⟩
  have hd := hds d (List.mem_cons_self d ds')
  have hparse := parseDec_numStr (d :: ds') fs hds hfs
  have hnum_h := numStr_toLower_ne (d :: ds') fs 'h' hds hfs (by decide) (by decide)
  have hnum_s := numStr_toLower_ne (d :: ds') fs '*' hds hfs (by decide) (by decide)
  have hmemH : ∀ x ∈ "AUPTPROGNOSE:".data ++ (' ' :: numStr (d :: ds') fs),
      x.toLower ≠ 'h' :=
    toLower_ne_append (by decide) (toLower_ne_cons (by decide) hnum_h)
  have hmemS : ∀ x ∈ "HAUPTPROGNOSE:".data ++ ' ' :: numStr (d :: ds') fs,
      x.toLower ≠ ('*' : Char).toLower :=
    fun x hx =>
      toLower_ne_append (by decide) (toLower_ne_cons (by decide) hnum_s) x hx
  have h01 : matchAt (.seq (slit ('H' :: "AUPTPROGNOSE:".data))
      (.seq sp (.seq num (.seq sp (.seq (.ch '%') .eps))))) none
      ('H' :: ("AUPTPROGNOSE:".data ++ (' ' :: numStr (d :: ds') fs))) = none :=
    matchAt_label_sp_num_pct_end_fail "HAUPTPROGNOSE:".data (d :: ds') fs none
      hds (by simp) hfs
  have h1 : reSearch (seqs [slit "HAUPTPROGNOSE:".data, sp, num, sp, .ch '%'])
      ("HAUPTPROGNOSE:".data ++ ' ' :: numStr (d :: ds') fs) = none :=
    reSearch_label_once_none 'H' "AUPTPROGNOSE:".data (seqs [sp, num, sp, .ch '%'])
      (' ' :: numStr (d :: ds') fs) h01
      (fun x hx => by
        rw [show ('H' : Char).toLower = 'h' from by decide]
        exact hmemH x hx)
  have h2 : reSearch (seqs [slit "**HAUPTPROGNOSE:".data, sp, num, sp, slit "%**".data])
      ("HAUPTPROGNOSE:".data ++ ' ' :: numStr (d :: ds') fs) = none :=
    reSearch_label_none '*' "*HAUPTPROGNOSE:".data
      (seqs [sp, num, sp, slit "%**".data]) _ hmemS
  have h03 : matchAt (.seq (slit ('H' :: "AUPTPROGNOSE:".data))
      (.seq sp (.seq (slit ('*' :: '*' :: []))
        (.seq num (.seq sp (.seq (slit "%**".data) .eps)))))) none
      ('H' :: ("AUPTPROGNOSE:".data ++ (' ' :: numStr (d :: ds') fs))) = none :=
    matchAt_label_sp_star_fail "HAUPTPROGNOSE:".data
      (.seq num (.seq sp (.seq (slit "%**".data) .eps))) (numStr (d :: ds') fs) none
      ⟨digit_not_spc d hd,
        toLower_ne_lit (by decide) (digit_toLower_ne d '*' hd (by decide))⟩
  have h3 : reSearch (seqs [slit "HAUPTPROGNOSE:".data, sp, slit "**".data, num, sp,
      slit "%**".data]) ("HAUPTPROGNOSE:".data ++ ' ' :: numStr (d :: ds') fs) = none :=
    reSearch_label_once_none 'H' "AUPTPROGNOSE:".data
      (seqs [sp, slit "**".data, num, sp, slit "%**".data])
      (' ' :: numStr (d :: ds') fs) h03
      (fun x hx => by
        rw [show ('H' : Char).toLower = 'h' from by decide]
        exact hmemH x hx)
  have h4 : reSearch (seqs [slit "HAUPTPROGNOSE:".data, sp, num])
      ("HAUPTPROGNOSE:".data ++ ' ' :: numStr (d :: ds') fs) = some (numStr (d :: ds') fs) :=
    reSearch_marker_bare "HAUPTPROGNOSE:".data (d :: ds') fs hds (by simp) hfs
  have hfirst : tryPatterns hauptprognose_patterns
      ("HAUPTPROGNOSE:".data ++ ' ' :: numStr (d :: ds') fs) = some (decVal (d :: ds') fs) := by
    unfold hauptprognose_patterns
    rw [tryPatterns_cons_none _ _ _ h1, tryPatterns_cons_none _ _ _ h2,
        tryPatterns_cons_none _ _ _ h3,
        tryPatterns_cons_some _ _ _ _ h4
          (by rw [hparse]; exact decVal_nonneg (d :: ds') fs) (by rw [hparse]; exact hv),
        hparse]
  unfold extract_probability
  rw [if_neg (by simp), hfirst]
  rfl

/-- The cascade on a bold-wrapped legacy marker `**PROGNOSE: N%**`: every
HAUPTPROGNOSE pattern fails everywhere and the plain legacy pattern matches
after the two leading asterisks. -/
theorem extract_prognose_bold (ds fs : List Char)
    (hds : ∀ c ∈ ds, c.isDigit = true) (hne : ds ≠ [])
    (hfs : ∀ c ∈ fs, c.isDigit = true) (hv : decVal ds fs ≤ 100) :
    extract_probability
        ('*' :: '*' :: marker_text "PROGNOSE:".data (numStr ds fs) ('*' :: '*' :: []))
      = some (decVal ds fs) := by
  have hparse := parseDec_numStr ds fs hds hfs
  have hnum_h := numStr_toLower_ne ds fs 'h' hds hfs (by decide) (by decide)
  have hmemH : ∀ x ∈ '*' :: '*' :: marker_text "PROGNOSE:".data (numStr ds fs)
      ('*' :: '*' :: []), x.toLower ≠ 'H'.toLower := by
    have hbase : ∀ x ∈ ('*' : Char) :: '*' :: ("PROGNOSE:".data
        ++ ' ' :: (numStr ds fs ++ '%' :: ('*' :: '*' :: []))), x.toLower ≠ 'h' :=
      toLower_ne_cons (by decide)
        (toLower_ne_cons (by decide)
          (toLower_ne_append (by decide)
            (toLower_ne_cons (by decide)
              (toLower_ne_append hnum_h (toLower_ne_cons (by decide) (by decide))))))
    intro x hx
    rw [show ('H' : Char).toLower = 'h' from by decide]
    exact hbase x hx
  have h1 : reSearch (seqs [slit "HAUPTPROGNOSE:".data, sp, num, sp, .ch '%'])
      ('*' :: '*' :: marker_text "PROGNOSE:".data (numStr ds fs) ('*' :: '*' :: []))
      = none :=
    reSearch_label_none 'H' "AUPTPROGNOSE:".data (seqs [sp, num, sp, .ch '%']) _ hmemH
  have h2 : reSearch (seqs [slit "**HAUPTPROGNOSE:".data, sp, num, sp, slit "%**".data])
      ('*' :: '*' :: marker_text "PROGNOSE:".data (numStr ds fs) ('*' :: '*' :: []))
      = none :=
    reSearch_starstar_pre_none 'H' "AUPTPROGNOSE:".data
      (seqs [sp, num, sp, slit "%**".data]) 'P' "ROGNOSE:".data ds fs hds hne hfs
      (by decide) (by decide)
  have h3 : reSearch (seqs [slit "HAUPTPROGNOSE:".data, sp, slit "**".data, num, sp,
      slit "%**".data])
      ('*' :: '*' :: marker_text "PROGNOSE:".data (numStr ds fs) ('*' :: '*' :: []))
      = none :=
    reSearch_label_none 'H' "AUPTPROGNOSE:".data
      (seqs [sp, slit "**".data, num, sp, slit "%**".data]) _ hmemH
  have h4 : reSearch (seqs [slit "HAUPTPROGNOSE:".data, sp, num])
      ('*' :: '*' :: marker_text "PROGNOSE:".data (numStr ds fs) ('*' :: '*' :: []))
      = none :=
    reSearch_label_none 'H' "AUPTPROGNOSE:".data (seqs [sp, num]) _ hmemH
  have hh : tryPatterns hauptprognose_patterns
      ('*' :: '*' :: marker_text "PROGNOSE:".data (numStr ds fs) ('*' :: '*' :: []))
      = none := by
    unfold hauptprognose_patterns
    rw [tryPatterns_cons_none _ _ _ h1, tryPatterns_cons_none _ _ _ h2,
        tryPatterns_cons_none _ _ _ h3, tryPatterns_cons_none _ _ _ h4]
    rfl
  have hs : reSearch (seqs [slit "PROGNOSE:".data, sp, num, sp, .ch '%'])
      ('*' :: '*' :: marker_text "PROGNOSE:".data (numStr ds fs) ('*' :: '*' :: []))
      = some (numStr ds fs) :=
    reSearch_marker_bold 'P' "ROGNOSE:".data ds fs hds hne hfs (by decide)
  have hsecond : tryPatterns prognose_patterns
      ('*' :: '*' :: marker_text "PROGNOSE:".data (numStr ds fs) ('*' :: '*' :: []))
      = some (decVal ds fs) := by
    unfold prognose_patterns
    rw [tryPatterns_cons_some _ _ _ _ hs
      (by rw [hparse]; exact decVal_nonneg ds fs) (by rw [hparse]; exact hv), hparse]
  unfold extract_probability
  rw [if_neg (by simp), hh, Option.none_orElse, hsecond]
  rfl

/-- The cascade on a starred-number legacy marker `PROGNOSE: **N%**`: every
HAUPTPROGNOSE pattern and the first two legacy patterns fail, the starred
legacy pattern 3 wins. -/
theorem extract_prognose_starred (ds fs : List Char)
    (hds : ∀ c ∈ ds, c.isDigit = true) (hne : ds ≠ [])
    (hfs : ∀ c ∈ fs, c.isDigit = true) (hv : decVal ds fs ≤ 100) :
    extract_probability
        ("PROGNOSE:".data ++ ' ' :: ('*' :: '*' :: (numStr ds fs ++ ('%' :: '*' :: '*' :: []))))
      = some (decVal ds fs) := by
  have hparse := parseDec_numStr ds fs hds hfs
  have hnum_h := numStr_toLower_ne ds fs 'h' hds hfs (by decide) (by decide)
  have hnum_p := numStr_toLower_ne ds fs 'p' hds hfs (by decide) (by decide)
  have hmemH : ∀ x ∈ "PROGNOSE:".data
      ++ ' ' :: ('*' :: '*' :: (numStr ds fs ++ ('%' :: '*' :: '*' :: []))),
      x.toLower ≠ 'H'.toLower := by
    have hbase : ∀ x ∈ "PROGNOSE:".data
        ++ ' ' :: ('*' :: '*' :: (numStr ds fs ++ ('%' :: '*' :: '*' :: []))),
        x.toLower ≠ 'h' :=
      toLower_ne_append (by decide)
        (toLower_ne_cons (by decide)
          (toLower_ne_cons (by decide)
            (toLower_ne_cons (by decide)
              (toLower_ne_append hnum_h (by decide)))))
    intro x hx
    rw [show ('H' : Char).toLower = 'h' from by decide]
    exact hbase x hx
  have hmemP : ∀ x ∈ "ROGNOSE:".data
      ++ (' ' :: ('*' :: '*' :: (numStr ds fs ++ ('%' :: '*' :: '*' :: [])))),
      x.toLower ≠ 'P'.toLower := by
    have hbase : ∀ x ∈ "ROGNOSE:".data
        ++ (' ' :: ('*' :: '*' :: (numStr ds fs ++ ('%' :: '*' :: '*' :: [])))),
        x.toLower ≠ 'p' :=
      toLower_ne_append (by decide)
        (toLower_ne_cons (by decide)
          (toLower_ne_cons (by decide)
            (toLower_ne_cons (by decide)
              (toLower_ne_append hnum_p (by decide)))))
    intro x hx
    rw [show ('P' : Char).toLower = 'p' from by decide]
    exact hbase x hx
  have h1 : reSearch (seqs [slit "HAUPTPROGNOSE:".data, sp, num, sp, .ch '%'])
      ("PROGNOSE:".data ++ ' ' :: ('*' :: '*' :: (numStr ds fs ++ ('%' :: '*' :: '*' :: []))))
      = none :=
    reSearch_label_none 'H' "AUPTPROGNOSE:".data (seqs [sp, num, sp, .ch '%']) _ hmemH
  have h2 : reSearch (seqs [slit "**HAUPTPROGNOSE:".data, sp, num, sp, slit "%**".data])
      ("PROGNOSE:".data ++ ' ' :: ('*' :: '*' :: (numStr ds fs ++ ('%' :: '*' :: '*' :: []))))
      = none :=
    reSearch_starstar_none 'H' "AUPTPROGNOSE:".data (seqs [sp, num, sp, slit "%**".data])
      "PROGNOSE:".data ds fs hds hne hfs (by decide) (by decide)
  have h3 : reSearch (seqs [slit "HAUPTPROGNOSE:".data, sp, slit "**".data, num, sp,
      slit "%**".data])
      ("PROGNOSE:".data ++ ' ' :: ('*' :: '*' :: (numStr ds fs ++ ('%' :: '*' :: '*' :: []))))
      = none :=
    reSearch_label_none 'H' "AUPTPROGNOSE:".data
      (seqs [sp, slit "**".data, num, sp, slit "%**".data]) _ hmemH
  have h4 : reSearch (seqs [slit "HAUPTPROGNOSE:".data, sp, num])
      ("PROGNOSE:".data ++ ' ' :: ('*' :: '*' :: (numStr ds fs ++ ('%' :: '*' :: '*' :: []))))
      = none :=
    reSearch_label_none 'H' "AUPTPROGNOSE:".data (seqs [sp, num]) _ hmemH
  have hh : tryPatterns hauptprognose_patterns
      ("PROGNOSE:".data ++ ' ' :: ('*' :: '*' :: (numStr ds fs ++ ('%' :: '*' :: '*' :: []))))
      = none := by
    unfold hauptprognose_patterns
    rw [tryPatterns_cons_none _ _ _ h1, tryPatterns_cons_none _ _ _ h2,
        tryPatterns_cons_none _ _ _ h3, tryPatterns_cons_none _ _ _ h4]
    rfl
  have hp01 : matchAt (.seq (slit ('P' :: "ROGNOSE:".data))
      (seqs [sp, num, sp, .ch '%'])) none
      ('P' :: ("ROGNOSE:".data
        ++ (' ' :: ('*' :: '*' :: (numStr ds fs ++ ('%' :: '*' :: '*' :: [])))))) = none :=
    matchAt_label_sp_num_fail "PROGNOSE:".data
      ('*' :: '*' :: (numStr ds fs ++ ('%' :: '*' :: '*' :: [])))
      (.seq sp (.seq (.ch '%') .eps)) none ⟨by decide, by decide⟩
  have hp1 : reSearch (seqs [slit "PROGNOSE:".data, sp, num, sp, .ch '%'])
      ("PROGNOSE:".data ++ ' ' :: ('*' :: '*' :: (numStr ds fs ++ ('%' :: '*' :: '*' :: []))))
      = none :=
    reSearch_label_once_none 'P' "ROGNOSE:".data (seqs [sp, num, sp, .ch '%'])
      (' ' :: ('*' :: '*' :: (numStr ds fs ++ ('%' :: '*' :: '*' :: [])))) hp01 hmemP
  have hp2 : reSearch (seqs [slit "**PROGNOSE:".data, sp, num, sp, slit "%**".data])
      ("PROGNOSE:".data ++ ' ' :: ('*' :: '*' :: (numStr ds fs ++ ('%' :: '*' :: '*' :: []))))
      = none :=
    reSearch_starstar_none 'P' "ROGNOSE:".data (seqs [sp, num, sp, slit "%**".data])
      "PROGNOSE:".data ds fs hds hne hfs (by decide) (by decide)
  have hm3 : matchAt (seqs [slit "PROGNOSE:".data, sp, slit "**".data, num, sp,
      slit "%**".data]) none
      ("PROGNOSE:".data ++ ' ' :: ('*' :: '*' :: (numStr ds fs ++ ('%' :: '*' :: '*' :: []))))
      = some ⟨some (numStr ds fs), some '*', []⟩ :=
    matchAt_marker_starred "PROGNOSE:".data ds fs none hds hne hfs
  have hp3 : reSearch (seqs [slit "PROGNOSE:".data, sp, slit "**".data, num, sp,
      slit "%**".data])
      ("PROGNOSE:".data ++ ' ' :: ('*' :: '*' :: (numStr ds fs ++ ('%' :: '*' :: '*' :: []))))
      = some (numStr ds fs) := by
    unfold reSearch
    rw [searchAux_of_matchAt hm3]
    rfl
  have hsecond : tryPatterns prognose_patterns
      ("PROGNOSE:".data ++ ' ' :: ('*' :: '*' :: (numStr ds fs ++ ('%' :: '*' :: '*' :: []))))
      = some (decVal ds fs) := by
    unfold prognose_patterns
    rw [tryPatterns_cons_none _ _ _ hp1, tryPatterns_cons_none _ _ _ hp2,
        tryPatterns_cons_some _ _ _ _ hp3
          (by rw [hparse]; exact decVal_nonneg ds fs) (by rw [hparse]; exact hv), hparse]
  unfold extract_probability
  rw [if_neg (by simp), hh, Option.none_orElse, hsecond]
  rfl

/-- The cascade on a percent-less legacy marker `PROGNOSE: N`: every
HAUPTPROGNOSE pattern and the first three legacy patterns fail, the bare
legacy pattern 4 wins. -/
theorem extract_prognose_bare (ds fs : List Char)
    (hds : ∀ c ∈ ds, c.isDigit = true) (hne : ds ≠ [])
    (hfs : ∀ c ∈ fs, c.isDigit = true) (hv : decVal ds fs ≤ 100) :
    extract_probability ("PROGNOSE:".data ++ ' ' :: numStr ds fs)
      = some (decVal ds fs) := by
  obtain ⟨d, ds', rfl⟩ : ∃ d ds', ds = d :: ds' := by
    cases ds with
    | nil => exact absurd rfl hne
    | cons a b => exact ⟨a, b, rfl⟩
  have hd := hds d (List.mem_cons_self d ds')
  have hparse := parseDec_numStr (d :: ds') fs hds hfs
  have hnum_h := numStr_toLower_ne (d :: ds') fs 'h' hds hfs (by decide) (by decide)
  have hnum_p := numStr_toLower_ne (d :: ds') fs 'p' hds hfs (by decide) (by decide)
  have hnum_s := numStr_toLower_ne (d :: ds') fs '*' hds hfs (by decide) (by decide)
  have hmemH : ∀ x ∈ "PROGNOSE:".data ++ ' ' :: numStr (d :: ds') fs,
      x.toLower ≠ 'h' :=
    toLower_ne_append (by decide) (toLower_ne_cons (by decide) hnum_h)
  have hmemS : ∀ x ∈ "PROGNOSE:".data ++ ' ' :: numStr (d :: ds') fs,
      x.toLower ≠ ('*' : Char).toLower :=
    fun x hx =>
      toLower_ne_append (by decide) (toLower_ne_cons (by decide) hnum_s) x hx
  have hmemP : ∀ x ∈ "ROGNOSE:".data ++ (' ' :: numStr (d :: ds') fs),
      x.toLower ≠ 'P'.toLower := by
    have hbase : ∀ x ∈ "ROGNOSE:".data ++ (' ' :: numStr (d :: ds') fs),
        x.toLower ≠ 'p' :=
      toLower_ne_append (by decide) (toLower_ne_cons (by decide) hnum_p)
    intro x hx
    rw [show ('P' : Char).toLower = 'p' from by decide]
    exact hbase x hx
  have hh : tryPatterns hauptprognose_patterns
      ("PROGNOSE:".data ++ ' ' :: numStr (d :: ds') fs) = none :=
    hauptPatterns_none_of_chars _ hmemH (fun x hx => hmemS x hx)
  have hp01 : matchAt (.seq (slit ('P' :: "ROGNOSE:".data))
      (.seq sp (.seq num (.seq sp (.seq (.ch '%') .eps))))) none
      ('P' :: ("ROGNOSE:".data ++ (' ' :: numStr (d :: ds') fs))) = none :=
    matchAt_label_sp_num_pct_end_fail "PROGNOSE:".data (d :: ds') fs none
      hds (by simp) hfs
  have hp1 : reSearch (seqs [slit "PROGNOSE:".data, sp, num, sp, .ch '%'])
      ("PROGNOSE:".data ++ ' ' :: numStr (d :: ds') fs) = none :=
    reSearch_label_once_none 'P' "ROGNOSE:".data (seqs [sp, num, sp, .ch '%'])
      (' ' :: numStr (d :: ds') fs) hp01 hmemP
  have hp2 : reSearch (seqs [slit "**PROGNOSE:".data, sp, num, sp, slit "%**".data])
      ("PROGNOSE:".data ++ ' ' :: numStr (d :: ds') fs) = none :=
    reSearch_label_none '*' "*PROGNOSE:".data
      (seqs [sp, num, sp, slit "%**".data]) _ hmemS
  have hp03 : matchAt (.seq (slit ('P' :: "ROGNOSE:".data))
      (.seq sp (.seq (slit ('*' :: '*' :: []))
        (.seq num (.seq sp (.seq (slit "%**".data) .eps)))))) none
      ('P' :: ("ROGNOSE:".data ++ (' ' :: numStr (d :: ds') fs))) = none :=
    matchAt_label_sp_star_fail "PROGNOSE:".data
      (.seq num (.seq sp (.seq (slit "%**".data) .eps))) (numStr (d :: ds') fs) none
      ⟨digit_not_spc d hd,
        toLower_ne_lit (by decide) (digit_toLower_ne d '*' hd (by decide))⟩
  have hp3 : reSearch (seqs [slit "PROGNOSE:".data, sp, slit "**".data, num, sp,
      slit "%**".data]) ("PROGNOSE:".data ++ ' ' :: numStr (d :: ds') fs) = none :=
    reSearch_label_once_none 'P' "ROGNOSE:".data
      (seqs [sp, slit "**".data, num, sp, slit "%**".data])
      (' ' :: numStr (d :: ds') fs) hp03 hmemP
  have hp4 : reSearch (seqs [slit "PROGNOSE:".data, sp, num])
      ("PROGNOSE:".data ++ ' ' :: numStr (d :: ds') fs) = some (numStr (d :: ds') fs) :=
    reSearch_marker_bare "PROGNOSE:".data (d :: ds') fs hds (by simp) hfs
  have hsecond : tryPatterns prognose_patterns
      ("PROGNOSE:".data ++ ' ' :: numStr (d :: ds') fs) = some (decVal (d :: ds') fs) := by
    unfold prognose_patterns
    rw [tryPatterns_cons_none _ _ _ hp1, tryPatterns_cons_none _ _ _ hp2,
        tryPatterns_cons_none _ _ _ hp3,
        tryPatterns_cons_some _ _ _ _ hp4
          (by rw [hparse]; exact decVal_nonneg (d :: ds') fs) (by rw [hparse]; exact hv),
        hparse]
  unfold extract_probability
  rw [if_neg (by simp), hh, Option.none_orElse, hsecond]
  rfl

/-- The cascade on a formula-result text `x = N`: both marker strategies fail
(no `h`, `p` or `*` characters), the two labelled formula patterns find
nothing, and the `=\s*(num)\s*%?$` pattern of strategy 3 takes the match. -/
theorem extract_calc (ds fs : List Char)
    (hds : ∀ c ∈ ds, c.isDigit = true) (hne : ds ≠ [])
    (hfs : ∀ c ∈ fs, c.isDigit = true) (hv : decVal ds fs ≤ 100) :
    extract_probability ('x' :: ' ' :: '=' :: ' ' :: numStr ds fs)
      = some (decVal ds fs) := by
  have hparse := parseDec_numStr ds fs hds hfs
  have hnum_h := numStr_toLower_ne ds fs 'h' hds hfs (by decide) (by decide)
  have hnum_p := numStr_toLower_ne ds fs 'p' hds hfs (by decide) (by decide)
  have hnum_s := numStr_toLower_ne ds fs '*' hds hfs (by decide) (by decide)
  have hnum_f := numStr_toLower_ne ds fs 'f' hds hfs (by decide) (by decide)
  have hmemH : ∀ x ∈ 'x' :: ' ' :: '=' :: ' ' :: numStr ds fs, x.toLower ≠ 'h' :=
    toLower_ne_cons (by decide) (toLower_ne_cons (by decide)
      (toLower_ne_cons (by decide) (toLower_ne_cons (by decide) hnum_h)))
  have hmemP : ∀ x ∈ 'x' :: ' ' :: '=' :: ' ' :: numStr ds fs, x.toLower ≠ 'p' :=
    toLower_ne_cons (by decide) (toLower_ne_cons (by decide)
      (toLower_ne_cons (by decide) (toLower_ne_cons (by decide) hnum_p)))
  have hmemS : ∀ x ∈ 'x' :: ' ' :: '=' :: ' ' :: numStr ds fs, x.toLower ≠ '*' :=
    toLower_ne_cons (by decide) (toLower_ne_cons (by decide)
      (toLower_ne_cons (by decide) (toLower_ne_cons (by decide) hnum_s)))
  have hmemF : ∀ x ∈ 'x' :: ' ' :: '=' :: ' ' :: numStr ds fs,
      x.toLower ≠ 'F'.toLower := by
    have hbase : ∀ x ∈ ('x' : Char) :: ' ' :: '=' :: ' ' :: numStr ds fs,
        x.toLower ≠ 'f' :=
      toLower_ne_cons (by decide) (toLower_ne_cons (by decide)
        (toLower_ne_cons (by decide) (toLower_ne_cons (by decide) hnum_f)))
    intro x hx
    rw [show ('F' : Char).toLower = 'f' from by decide]
    exact hbase x hx
  have hh : tryPatterns hauptprognose_patterns
      ('x' :: ' ' :: '=' :: ' ' :: numStr ds fs) = none :=
    hauptPatterns_none_of_chars _ hmemH hmemS
  have hp : tryPatterns prognose_patterns
      ('x' :: ' ' :: '=' :: ' ' :: numStr ds fs) = none :=
    prognosePatterns_none_of_chars _ hmemP hmemS
  have hf1 : reFindall (seqs [slit "Final_Probability".data, sp, .ch '=', sp, num])
      ('x' :: ' ' :: '=' :: ' ' :: numStr ds fs) = [] :=
    reFindall_of_searchAux_none _ _
      (searchAux_label_none 'F' "inal_Probability".data
        (seqs [sp, .ch '=', sp, num]) _ none hmemF)
  have hf2 : reFindall (seqs [slit "Final_Probability".data, sp, .ch '=', lazyDot,
      num, sp, .ch '%']) ('x' :: ' ' :: '=' :: ' ' :: numStr ds fs) = [] :=
    reFindall_of_searchAux_none _ _
      (searchAux_label_none 'F' "inal_Probability".data
        (seqs [sp, .ch '=', lazyDot, num, sp, .ch '%']) _ none hmemF)
  have hone : reFindall (seqs [.ch '=', sp, num, sp, .quest (.ch '%'), .eol])
      ('x' :: ' ' :: '=' :: ' ' :: numStr ds fs) = [numStr ds fs] := by
    rw [show ('x' :: ' ' :: '=' :: ' ' :: numStr ds fs : List Char)
          = 'x' :: ' ' :: '=' :: ' ' :: (numStr ds fs ++ []) from by simp]
    have hx1 : matchAt (seqs [.ch '=', sp, num, sp, .quest (.ch '%'), .eol]) none
        ('x' :: (' ' :: '=' :: ' ' :: (numStr ds fs ++ []))) = none :=
      matchAt_ch_head_fail '=' (seqs [sp, num, sp, .quest (.ch '%'), .eol]) 'x' _
        none (by decide)
    have hx2 : matchAt (seqs [.ch '=', sp, num, sp, .quest (.ch '%'), .eol]) (some 'x')
        (' ' :: ('=' :: ' ' :: (numStr ds fs ++ []))) = none :=
      matchAt_ch_head_fail '=' (seqs [sp, num, sp, .quest (.ch '%'), .eol]) ' ' _
        (some 'x') (by decide)
    have hsa : searchAux (seqs [.ch '=', sp, num, sp, .quest (.ch '%'), .eol]) none
        ('x' :: ' ' :: '=' :: ' ' :: (numStr ds fs ++ []))
        = some ⟨some (numStr ds fs), endPrev (numStr ds fs) (some ' '), []⟩ := by
      rw [searchAux_step _ _ _ _ hx1, searchAux_step _ _ _ _ hx2]
      exact searchAux_of_matchAt (matchAt_calc ds fs (some ' ') hds hne hfs)
    exact reFindall_single _ 'x' _ _ hsa rfl
      (fun p => matchAt_ch_nil '=' (seqs [sp, num, sp, .quest (.ch '%'), .eol]) p)
  have hlast : (reFindall (seqs [.ch '=', sp, num, sp, .quest (.ch '%'), .eol])
      ('x' :: ' ' :: '=' :: ' ' :: numStr ds fs)).getLast? = some (numStr ds fs) := by
    rw [hone]
    rfl
  have hthird : tryFindallChecked final_prob_patterns
      ('x' :: ' ' :: '=' :: ' ' :: numStr ds fs) = some (decVal ds fs) := by
    unfold final_prob_patterns
    rw [tryFindallChecked_cons_none _ _ _ hf1, tryFindallChecked_cons_none _ _ _ hf2,
        tryFindallChecked_cons_some _ _ _ _ hlast
          (by rw [hparse]; exact decVal_nonneg ds fs) (by rw [hparse]; exact hv), hparse]
  unfold extract_probability
  rw [if_neg (by simp), hh, Option.none_orElse, hp, Option.none_orElse, hthird]
  rfl

/-- Claim C7: the extractor recovers every decimal numeral value p in [0,100]
exactly from every supported marker format — the primary HAUPTPROGNOSE marker
and the legacy PROGNOSE marker, each in its plain `LABEL: N%`, bold-wrapped
`**LABEL: N%**`, starred-number `LABEL: **N%**` and percent-less `LABEL: N`
decorations — and from a formula-result text `x = N`; it returns absent on
empty input and on marker-free text; totality of the Lean function embeds the
"never raises" part. -/
theorem claim7_extract_recovers_or_absent (ds fs : List Char)
    (hds : ∀ c ∈ ds, c.isDigit = true) (hne : ds ≠ [])
    (hfs : ∀ c ∈ fs, c.isDigit = true) (hv : decVal ds fs ≤ 100) :
    extract_probability (marker_text "HAUPTPROGNOSE:".data (numStr ds fs) [])
        = some (decVal ds fs) ∧
      extract_probability
          ('*' :: '*' :: marker_text "HAUPTPROGNOSE:".data (numStr ds fs) ('*' :: '*' :: []))
        = some (decVal ds fs) ∧
      extract_probability
          ("HAUPTPROGNOSE:".data
            ++ ' ' :: ('*' :: '*' :: (numStr ds fs ++ ('%' :: '*' :: '*' :: []))))
        = some (decVal ds fs) ∧
      extract_probability ("HAUPTPROGNOSE:".data ++ ' ' :: numStr ds fs)
        = some (decVal ds fs) ∧
      extract_probability (marker_text "PROGNOSE:".data (numStr ds fs) [])
        = some (decVal ds fs) ∧
      extract_probability
          ('*' :: '*' :: marker_text "PROGNOSE:".data (numStr ds fs) ('*' :: '*' :: []))
        = some (decVal ds fs) ∧
      extract_probability
          ("PROGNOSE:".data
            ++ ' ' :: ('*' :: '*' :: (numStr ds fs ++ ('%' :: '*' :: '*' :: []))))
        = some (decVal ds fs) ∧
      extract_probability ("PROGNOSE:".data ++ ' ' :: numStr ds fs)
        = some (decVal ds fs) ∧
      extract_probability ('x' :: ' ' :: '=' :: ' ' :: numStr ds fs)
        = some (decVal ds fs) ∧
      extract_probability [] = none ∧
      extract_probability "No forecast value appears anywhere in this text.".data = none :=
  ⟨extract_hauptprognose ds fs [] hds hne hfs hv,
   extract_haupt_bold ds fs hds hne hfs hv,
   extract_haupt_starred ds fs hds hne hfs hv,
   extract_haupt_bare ds fs hds hne hfs hv,
   extract_prognose ds fs hds hne hfs hv,
   extract_prognose_bold ds fs hds hne hfs hv,
   extract_prognose_starred ds fs hds hne hfs hv,
   extract_prognose_bare ds fs hds hne hfs hv,
   extract_calc ds fs hds hne hfs hv,
   rfl,
   by decide⟩

/-- Witness for C7 at the decimal numeral 42.5: the plain primary-marker
format and the formula-result format both recover it. -/
theorem claim7_witness :
    extract_probability (marker_text "HAUPTPROGNOSE:".data (numStr "42".data "5".data) [])
        = some (decVal "42".data "5".data) ∧
      extract_probability ('x' :: ' ' :: '=' :: ' ' :: numStr "42".data "5".data)
        = some (decVal "42".data "5".data) := by
  have h := claim7_extract_recovers_or_absent "42".data "5".data (by decide) (by decide)
    (by decide) (by decide)
  exact ⟨h.1, h.2.2.2.2.2.2.2.2.1⟩

end Foresight
